import Mathlib

/-!
Verification of the booking/spot lifecycle logic of the
Vehicle-Parking-App repository (src/app.py, src/api_admin.py,
src/api_auth.py, src/auth.py, src/core/models.py).

The Python request handlers are shallowly embedded as pure functions over
an explicit relational state.  Each handler returns an outcome together
with the state as committed at the end of the request: every error exit
returns the caller's state unchanged, mirroring the rollback of the
uncommitted SQLAlchemy session at request teardown; the few places where
the code commits before a later crash are modelled by returning the
mutated state with an error outcome.  Machine details that the claims do
not depend on (HTTP encoding, templates, CSRF) are not modelled.
datetimes are modelled at second granularity as an absolute UTC value
plus a timezone-awareness flag; werkzeug's salted hash is modelled as the
identity on its (normalized) input, a collision-free abstraction.
-/

namespace Parking

/-! ## Python string primitives used by the code -/

/-- Python `s.split(sep)` for a single-character separator, on the char
list of `s`.  Like Python's, it never returns an empty list:
`''.split('-') == ['']`. -/
def pySplit (sep : Char) : List Char → List (List Char)
  | [] => [[]]
  | c :: cs =>
    let r := pySplit sep cs
    if c = sep then [] :: r
    else
      match r with
      | [] => [[c]]
      | h :: t => (c :: h) :: t

/-- Python slice `l[1:-1]`: the elements at indices `1 .. len-2`. -/
def pySliceMiddle {α : Type} (l : List α) : List α :=
  (l.drop 1).dropLast

/-- `'-'.join(s.split('-')[1:-1])` — the partial secret-key derivation
used by `register_page`, `reset_password_verify` (src/auth.py) and
`ForgotPasswordResetAPI.post` (src/api_auth.py).  Every step (split,
slice, join) is total, so the `except IndexError` fallbacks in the two
password-reset paths are dead code. -/
def derivedKey (s : String) : String :=
  String.intercalate "-" ((pySliceMiddle (pySplit '-' s.data)).map String.mk)

/-- `s.split('-')[0]`: the text before the first `-` (the whole string
when there is no dash; `""` for the empty string). -/
def beforeDashL (l : List Char) : List Char :=
  match pySplit '-' l with
  | [] => []
  | h :: _ => h

/-- Python `s.strip()`: drop leading and trailing whitespace. -/
def pyStrip (s : String) : String :=
  String.mk
    (((s.data.dropWhile Char.isWhitespace).reverse.dropWhile
        Char.isWhitespace).reverse)

/-- Python `s.upper()` (ASCII case mapping). -/
def pyUpper (s : String) : String :=
  String.mk (s.data.map Char.toUpper)

/-- Python `s.lower()` (ASCII case mapping). -/
def pyLower (s : String) : String :=
  String.mk (s.data.map Char.toLower)

/-- Python `s.startswith(pat)` on char lists. -/
def startsWithChars : List Char → List Char → Bool
  | [], _ => true
  | _ :: _, [] => false
  | a :: as, b :: bs => a = b && startsWithChars as bs

/-- Byte-wise (codepoint) strict lexicographic order on char lists: the
order SQLite's default BINARY collation applies to ASCII TEXT columns,
hence the order produced by `order_by(ParkingSpot.spot_identifier.asc())`. -/
def lexLtChars : List Char → List Char → Bool
  | [], [] => false
  | [], _ :: _ => true
  | _ :: _, [] => false
  | a :: as, b :: bs =>
    if a.toNat < b.toNat then true
    else if b.toNat < a.toNat then false
    else lexLtChars as bs

/-- Strict identifier order used by the spot-selection queries. -/
def identLt (a b : String) : Bool :=
  lexLtChars a.data b.data

/-! ### Numeric-aware ordering (the key used only by the display endpoint
`api_admin_area_spot_status`, src/app.py line 490:
`[int(t) if t.isdigit() else t.lower() for t in re.split(r'([0-9]+)', ident)]`). -/

/-- One chunk of `re.split(r'([0-9]+)', s)` after the list comprehension:
either a lowercased text run or the integer value of a digit run. -/
inductive Tok : Type
  | txt (v : String)
  | num (v : Nat)
deriving DecidableEq, Repr

/-- Decimal value of a digit run. -/
def digitsToNat (ds : List Char) : Nat :=
  ds.foldl (fun n c => n * 10 + (c.toNat - 48)) 0

/-- Fuel-driven splitting of a char list into alternating non-digit and
digit runs, mirroring `re.split(r'([0-9]+)', s)` (which always starts and
ends with a — possibly empty — non-digit chunk). -/
def toksF : Nat → List Char → List Tok
  | 0, _ => []
  | fuel + 1, cs =>
    let p := cs.span (fun c => !c.isDigit)
    match p.2 with
    | [] => [Tok.txt (String.mk (p.1.map Char.toLower))]
    | _ :: _ =>
      let q := p.2.span Char.isDigit
      Tok.txt (String.mk (p.1.map Char.toLower)) ::
        Tok.num (digitsToNat q.1) :: toksF fuel q.2

/-- The sort key of `api_admin_area_spot_status`. -/
def tokenize (s : String) : List Tok :=
  toksF (s.data.length + 1) s.data

/-- Python list comparison of the mixed str/int keys (comparing an int
with a str raises in Python; such pairs are returned as `false` and never
arise between identifiers of one area). -/
def tokLt : List Tok → List Tok → Bool
  | [], [] => false
  | [], _ :: _ => true
  | _ :: _, [] => false
  | Tok.txt a :: as, Tok.txt b :: bs =>
    if identLt a b then true else if identLt b a then false else tokLt as bs
  | Tok.num a :: as, Tok.num b :: bs =>
    if a < b then true else if b < a then false else tokLt as bs
  | Tok.txt _ :: _, Tok.num _ :: _ => false
  | Tok.num _ :: _, Tok.txt _ :: _ => false

/-- The numeric-aware identifier order described by the spec. -/
def numericAwareLt (a b : String) : Bool :=
  tokLt (tokenize a) (tokenize b)

/-! ## Data model (src/core/models.py) -/

/-- `ParkingSpot.status` column values. -/
inductive SpotStatus : Type
  | available
  | reserved
  | occupied
deriving DecidableEq, Repr

/-- `Booking.status` column values. -/
inductive BookingStatus : Type
  | pending
  | active
  | completed
  | rejected
deriving DecidableEq, Repr

/-- A datetime at second granularity: absolute UTC seconds plus the
tz-awareness flag (`aware = false` models a naive datetime whose wall
time, read as UTC, is `secs`). -/
structure DT : Type where
  secs : Int
  aware : Bool
deriving DecidableEq, Repr

/-- `datetime.replace(tzinfo=timezone.utc)` on a naive datetime: same
wall-clock value, now aware. -/
def DT.toAware (d : DT) : DT :=
  if d.aware then d else { d with aware := true }

/-- Aware/naive datetime subtraction in seconds; Python raises on a
mixed pair, modelled as `none`. -/
def dtSub (a b : DT) : Option Int :=
  if a.aware = b.aware then some (a.secs - b.secs) else none

structure ParkingArea : Type where
  id : Nat
  name : String
  pricePerHour : Rat
deriving DecidableEq, Repr

structure ParkingSpot : Type where
  id : Nat
  spotIdentifier : String
  status : SpotStatus
  parkingAreaId : Nat
deriving DecidableEq, Repr

structure Car : Type where
  id : Nat
  licensePlate : String
  userId : Nat
deriving DecidableEq, Repr

structure Booking : Type where
  id : Nat
  userId : Nat
  carId : Nat
  spotId : Nat
  startTime : Option DT
  endTime : Option DT
  status : BookingStatus
  totalCost : Option Rat
deriving DecidableEq, Repr

/-- `User` row; the salted hashes are modelled as the identity on the
normalized input text (see the header comment). -/
structure User : Type where
  id : Nat
  username : String
  email : String
  passwordHash : String
  active : Bool
  fsUniquifier : String
  secretQuestionId : Nat
  secretAnswerHash : String
  roles : List String
deriving DecidableEq, Repr

/-- The relational state: table contents plus the autoincrement counters
for the rows the modelled handlers insert. -/
structure St : Type where
  users : List User
  areas : List ParkingArea
  spots : List ParkingSpot
  cars : List Car
  bookings : List Booking
  nextAreaId : Nat
  nextSpotId : Nat
  nextCarId : Nat
  nextBookingId : Nat
deriving DecidableEq, Repr

/-- Outcome of a request: success, or an error/flash-warning response. -/
inductive Outcome : Type
  | ok
  | err
deriving DecidableEq, Repr

/-! ## Query and session helpers -/

/-- `Booking.query.get(bid)` / `get_or_404`. -/
def findBooking (st : St) (bid : Nat) : Option Booking :=
  st.bookings.find? (fun b => b.id = bid)

def findSpot (st : St) (sid : Nat) : Option ParkingSpot :=
  st.spots.find? (fun s => s.id = sid)

def findArea (st : St) (aid : Nat) : Option ParkingArea :=
  st.areas.find? (fun a => a.id = aid)

def findCar (st : St) (cid : Nat) : Option Car :=
  st.cars.find? (fun c => c.id = cid)

/-- Mutating the booking row(s) with the given id. -/
def updateBooking (st : St) (bid : Nat) (f : Booking → Booking) : St :=
  { st with bookings := st.bookings.map (fun b => if b.id = bid then f b else b) }

/-- Mutating the spot row(s) with the given id. -/
def updateSpot (st : St) (sid : Nat) (f : ParkingSpot → ParkingSpot) : St :=
  { st with spots := st.spots.map (fun s => if s.id = sid then f s else s) }

/-- A booking counted by the one-per-car guards: status in
`('active', 'pending')`. -/
def isLive (b : Booking) : Bool :=
  b.status = BookingStatus.active || b.status = BookingStatus.pending

/-- `ParkingSpot.query.filter_by(parking_area_id=aid, status='available')`. -/
def availableSpotsIn (st : St) (aid : Nat) : List ParkingSpot :=
  st.spots.filter (fun s => s.parkingAreaId = aid && s.status = SpotStatus.available)

/-- `.order_by(ParkingSpot.spot_identifier.asc()).first()`: the row with
the smallest identifier in SQLite's byte-wise TEXT order. -/
def minByIdent : List ParkingSpot → Option ParkingSpot
  | [] => none
  | s :: rest =>
    match minByIdent rest with
    | none => some s
    | some m => if identLt m.spotIdentifier s.spotIdentifier then some m else some s

/-- `round(q, 2)` on the exact value. -/
def round2 (q : Rat) : Rat :=
  (round (100 * q) : Int) / 100

/-! ## Lifecycle handlers (src/app.py) -/

/-- `POST /user/book` (src/app.py `user_book`, lines 689-728).  `areaId`
and `carId` are the parsed form fields (`none` when missing or
non-numeric; the value 0 is also falsy in Python).  All error exits roll
back to the caller's state. -/
def user_book (st : St) (now : Int) (uid : Nat) (isAdminUser : Bool)
    (areaId carId : Option Nat) : Outcome × St :=
  if isAdminUser then (.err, st)
  else
    match areaId, carId with
    | some aid, some cid =>
      if aid = 0 || cid = 0 then (.err, st)
      else
        match findCar st cid with
        | none => (.err, st)
        | some car =>
          if car.userId ≠ uid then (.err, st)
          else if (st.bookings.find? (fun b => b.carId = cid && isLive b)).isSome then
            (.err, st)
          else
            match minByIdent (availableSpotsIn st aid) with
            | none => (.err, st)
            | some spot =>
              let st1 := updateSpot st spot.id (fun sp => { sp with status := .reserved })
              let b : Booking :=
                { id := st.nextBookingId, userId := uid, carId := cid, spotId := spot.id,
                  startTime := some ⟨now, true⟩, -- column default: datetime.now(timezone.utc)
                  endTime := none, status := .pending, totalCost := none }
              (.ok, { st1 with bookings := st1.bookings ++ [b],
                               nextBookingId := st.nextBookingId + 1 })
    | _, _ => (.err, st)

/-- Shared tail of `admin_offline_book` after the find-or-create of the
car: the one-live-booking-per-car check, spot selection and activation.
`newCar` is the car flushed into the session when the plate was unknown;
it is persisted only on the success path (a rollback discards it). -/
def offlineBookCore (st : St) (now : Int) (area : ParkingArea) (car : Car)
    (newCar : Option Car) : Outcome × St :=
  if (st.bookings.find? (fun b => b.carId = car.id && isLive b)).isSome then (.err, st)
  else
    match minByIdent (availableSpotsIn st area.id) with
    | none => (.err, st)
    | some spot =>
      let cars' := match newCar with | some c => st.cars ++ [c] | none => st.cars
      let nextCar' := match newCar with | some _ => st.nextCarId + 1 | none => st.nextCarId
      let st1 := updateSpot { st with cars := cars', nextCarId := nextCar' } spot.id
        (fun sp => { sp with status := .occupied })
      let b : Booking :=
        { id := st.nextBookingId, userId := car.userId, carId := car.id, spotId := spot.id,
          startTime := some ⟨now, true⟩, endTime := none, status := .active,
          totalCost := none }
      (.ok, { st1 with bookings := st1.bookings ++ [b],
                       nextBookingId := st.nextBookingId + 1 })

/-- `POST /admin/offline-book` (src/app.py `admin_offline_book`, lines
132-193). -/
def admin_offline_book (st : St) (now : Int) (plateRaw : String)
    (areaId : Option Nat) : Outcome × St :=
  match areaId with
  | none => (.err, st)
  | some aid =>
    if pyUpper (pyStrip plateRaw) = "" || aid = 0 then (.err, st)
    else
      match findArea st aid with
      | none => (.err, st)
      | some area =>
        match st.cars.find? (fun c => c.licensePlate = pyUpper (pyStrip plateRaw)) with
        | some car => offlineBookCore st now area car none
        | none =>
          match st.users.find? (fun u => u.username = "offline_user") with
          | none => (.err, st)
          | some offlineUser =>
            offlineBookCore st now area
              { id := st.nextCarId, licensePlate := pyUpper (pyStrip plateRaw),
                userId := offlineUser.id }
              (some { id := st.nextCarId, licensePlate := pyUpper (pyStrip plateRaw),
                      userId := offlineUser.id })

/-- `POST /admin/requests/<id>/approve` (src/app.py
`admin_request_approve`, lines 504-518).  When the booking's spot row is
missing, the commit has already happened when the flash line dereferences
`b.spot.spot_identifier`, so the mutated state is returned with an error. -/
def admin_request_approve (st : St) (now : Int) (bid : Nat) : Outcome × St :=
  match findBooking st bid with
  | none => (.err, st)
  | some b =>
    if b.status ≠ .pending then (.err, st)
    else
      let st1 := updateBooking st bid
        (fun bb => { bb with status := .active, startTime := some ⟨now, true⟩ })
      match findSpot st b.spotId with
      | some spot => (.ok, updateSpot st1 spot.id (fun sp => { sp with status := .occupied }))
      | none => (.err, st1)

/-- `POST /admin/requests/<id>/reject` (src/app.py `admin_request_reject`,
lines 521-534). -/
def admin_request_reject (st : St) (bid : Nat) : Outcome × St :=
  match findBooking st bid with
  | none => (.err, st)
  | some b =>
    if b.status ≠ .pending then (.err, st)
    else
      (.ok, updateBooking
        (match findSpot st b.spotId with
         | some spot => updateSpot st spot.id (fun sp => { sp with status := .available })
         | none => st)
        bid (fun bb => { bb with status := .rejected }))

/-- `POST /user/pending/<id>/cancel` (src/app.py `user_cancel_pending`,
lines 569-580). -/
def user_cancel_pending (st : St) (uid : Nat) (bid : Nat) : Outcome × St :=
  match findBooking st bid with
  | none => (.err, st)
  | some b =>
    if b.userId ≠ uid || b.status ≠ .pending then (.err, st)
    else
      (.ok, updateBooking
        (match findSpot st b.spotId with
         | some spot => updateSpot st spot.id (fun sp => { sp with status := .available })
         | none => st)
        bid (fun bb => { bb with status := .rejected }))

/-- `POST /user/release/<id>` (src/app.py `user_release`, lines 643-672).
The only idempotence guard is `status == 'completed'`; a pending or
rejected booking is released like an active one.  When the spot row or
the start time is missing the booking-only change is committed and then
the flash's `:.2f` formatting of the `None` cost raises, hence the
mutated state with an error outcome on that branch. -/
def user_release (st : St) (now : Int) (uid : Nat) (bid : Nat) : Outcome × St :=
  match findBooking st bid with
  | none => (.err, st)
  | some b =>
    if b.userId ≠ uid then (.err, st)
    else if b.status = .completed then (.err, st)
    else
      let b1 := { b with status := BookingStatus.completed, endTime := some ⟨now, true⟩ }
      match findSpot st b.spotId, b.startTime.map DT.toAware with
      | some spot, some start =>
        match findArea st spot.parkingAreaId with
        | none => (.err, st)
        | some area =>
          match dtSub ⟨now, true⟩ start with
          | none => (.err, st)
          | some elapsed =>
            let billed : Int := max 1 ⌈(elapsed : Rat) / 3600⌉
            let b2 := { b1 with totalCost := some (round2 (billed * area.pricePerHour)) }
            (.ok, updateSpot (updateBooking st bid (fun _ => b2)) spot.id
                    (fun sp => { sp with status := .available }))
      | _, _ => (.err, updateBooking st bid (fun _ => b1))

/-- `_complete_booking` + `POST /admin/offline/release/<id>` (src/app.py
lines 81-98 and 196-210).  Unlike `user_release` this route guards on
`status != 'active'`, and `_complete_booking` frees the spot even when
the start time is missing (the cost is then left unset; the flash uses
`(b.total_cost or 0)` so it does not raise). -/
def admin_offline_release (st : St) (now : Int) (bid : Nat) : Outcome × St :=
  match findBooking st bid with
  | none => (.err, st)
  | some b =>
    if b.status ≠ .active then (.err, st)
    else
      let b1 := { b with status := BookingStatus.completed, endTime := some ⟨now, true⟩ }
      match findSpot st b.spotId with
      | none => (.ok, updateBooking st bid (fun _ => b1))
      | some spot =>
        match b.startTime.map DT.toAware with
        | none =>
          (.ok, updateSpot (updateBooking st bid (fun _ => b1)) spot.id
                  (fun sp => { sp with status := .available }))
        | some start =>
          match findArea st spot.parkingAreaId with
          | none => (.err, st)
          | some area =>
            match dtSub ⟨now, true⟩ start with
            | none => (.err, st)
            | some elapsed =>
              let billed : Int := max 1 ⌈(elapsed : Rat) / 3600⌉
              let b2 := { b1 with totalCost := some (round2 (billed * area.pricePerHour)) }
              (.ok, updateSpot (updateBooking st bid (fun _ => b2)) spot.id
                      (fun sp => { sp with status := .available }))

/-! ## Admin JSON API (src/api_admin.py) -/

/-- Parsed body of `POST /api/admin/bookings`.  The endpoint accepts the
status as a free string; the model restricts it to the four column
values, which covers every state the claims exercise. -/
structure BookingPostArgs : Type where
  userId : Nat
  carId : Nat
  spotId : Nat
  startTime : DT
  endTime : Option DT
  status : BookingStatus
  totalCost : Option Rat
deriving DecidableEq, Repr

/-- `BookingListAPI.post` (src/api_admin.py lines 136-160), after the
required-field and datetime-parse validation (whose failures return 400
with the state unchanged).  No per-car or per-spot check is performed:
the booking row is inserted as given, and the spot is marked occupied
when the requested status is `active`. -/
def apiBookingPost (st : St) (args : BookingPostArgs) : Outcome × St :=
  (.ok,
    { (match findSpot st args.spotId with
       | some spot =>
         if args.status = BookingStatus.active then
           updateSpot st spot.id (fun sp => { sp with status := .occupied })
         else st
       | none => st) with
      bookings := st.bookings ++
        [{ id := st.nextBookingId, userId := args.userId, carId := args.carId,
           spotId := args.spotId, startTime := some args.startTime,
           endTime := args.endTime, status := args.status,
           totalCost := args.totalCost }],
      nextBookingId := st.nextBookingId + 1 })

/-- Parsed body of `POST /api/admin/parking-areas`. -/
structure AreaPostArgs : Type where
  name : String
  locationDescription : String
  pricePerHour : Rat
  numSpots : Nat
  areaCode : String
deriving DecidableEq, Repr

/-- `ParkingAreaListAPI.post` (src/api_admin.py lines 75-107): provisions
the area together with spots `<CODE>-1 .. <CODE>-N`. -/
def apiAreaPost (st : St) (args : AreaPostArgs) : Outcome × St :=
  if (st.areas.find? (fun a => a.name = args.name)).isSome then (.err, st)
  else if (st.spots.find? (fun s =>
      startsWithChars (pyUpper args.areaCode ++ "-").data
        s.spotIdentifier.data)).isSome then (.err, st)
  else
    (.ok, { st with
            areas := st.areas ++
              [{ id := st.nextAreaId, name := args.name,
                 pricePerHour := args.pricePerHour }],
            spots := st.spots ++ (List.range args.numSpots).map (fun i =>
              ({ id := st.nextSpotId + i,
                 spotIdentifier :=
                   pyUpper args.areaCode ++ "-" ++ toString (i + 1),
                 status := .available,
                 parkingAreaId := st.nextAreaId } : ParkingSpot)),
            nextAreaId := st.nextAreaId + 1,
            nextSpotId := st.nextSpotId + args.numSpots })

/-- The derived (not stored) area code, as computed by
`ParkingAreaListAPI.get` (src/api_admin.py line 73) and
`api_admin_area_spot_status` (src/app.py lines 485-486):
`area.spots.first().spot_identifier.split('-')[0]`, or `''` when the
area has no spots. -/
def areaCodeOf (st : St) (aid : Nat) : String :=
  match (st.spots.filter (fun s => s.parkingAreaId = aid)).head? with
  | none => ""
  | some s => String.mk (beforeDashL s.spotIdentifier.data)

/-! ## Authentication and account recovery (src/auth.py, src/api_auth.py) -/

/-- `is_password_strong` (src/api_auth.py lines 14-20). -/
def isPasswordStrong (p : String) : Bool :=
  if p.length < 6 then false
  else if !(p.data.any (fun c => 'A' ≤ c && c ≤ 'Z')) then false
  else if !(p.data.any (fun c => '0' ≤ c && c ≤ '9')) then false
  else if !(p.data.any (fun c =>
    ("!@#$%^&*(),.?\":\x7b\x7d|<>".data).contains c)) then false
  else true

/-- `generate_password_hash`, modelled as the identity (collision-free
abstraction of the salted hash; `check_password_hash` becomes equality). -/
def pwHash (s : String) : String := s

/-- `User.check_secret_answer` (src/core/models.py): the stored hash is
checked against the lowercased, stripped submission. -/
def checkSecretAnswer (u : User) (ans : String) : Bool :=
  if u.secretAnswerHash = "" then false
  else u.secretAnswerHash = pwHash (pyStrip (pyLower ans))

/-- `POST /api/auth/forgot-password/reset`
(`ForgotPasswordResetAPI.post`, src/api_auth.py lines 99-129).  The
key-derivation slice is total, so the `except IndexError` 500 branch is
unreachable. -/
def forgotPasswordResetApi (users : List User) (email ans key newPw : String) :
    Outcome × List User :=
  match users.find? (fun u => u.email = email) with
  | none => (.err, users)
  | some u =>
    if !(checkSecretAnswer u ans) || derivedKey u.fsUniquifier ≠ key then
      (.err, users)
    else if !(isPasswordStrong newPw) then (.err, users)
    else
      (.ok, users.map (fun v =>
        if v.id = u.id then { v with passwordHash := pwHash newPw } else v))

/-- `GET|POST /reset-password/verify` (`reset_password_verify`,
src/auth.py lines 111-154): session email, form validation
(all fields required, password at least 6 chars and equal to its
confirmation), then the same two-factor check. -/
def resetPasswordVerify (users : List User) (sessionEmail : Option String)
    (ans key newPw confirmPw : String) : Outcome × List User :=
  match sessionEmail with
  | none => (.err, users)
  | some email =>
    match users.find? (fun u => u.email = email) with
    | none => (.err, users)
    | some u =>
      if ans = "" || key = "" || newPw = "" || confirmPw ≠ newPw ||
          newPw.length < 6 then
        (.err, users)
      else
        if checkSecretAnswer u ans && derivedKey u.fsUniquifier = key then
          (.ok, users.map (fun v =>
            if v.id = u.id then { v with passwordHash := pwHash newPw } else v))
        else (.err, users)

/-! ## Invariants -/

/-- Claim C4's invariant: no two live (active/pending) bookings share a
car. -/
def perCarLive (st : St) : Prop :=
  st.bookings.Pairwise (fun a b => isLive a → isLive b → a.carId ≠ b.carId)

/-- Claim C7's invariant: no two active bookings share a spot. -/
def perSpotActive (st : St) : Prop :=
  st.bookings.Pairwise
    (fun a b => a.status = BookingStatus.active → b.status = BookingStatus.active →
      a.spotId ≠ b.spotId)

/-- Strengthening used by the amended C7: no two live bookings share a
spot. -/
def perSpotLive (st : St) : Prop :=
  st.bookings.Pairwise (fun a b => isLive a → isLive b → a.spotId ≠ b.spotId)

/-- Strengthening used by the amended C7: an available spot carries no
live booking. -/
def availNoLive (st : St) : Prop :=
  ∀ s ∈ st.spots, s.status = SpotStatus.available →
    ∀ b ∈ st.bookings, isLive b → b.spotId ≠ s.id

/-- Well-formedness: booking ids are pairwise distinct. -/
def bookingIdsNodup (st : St) : Prop :=
  st.bookings.Pairwise (fun a b => a.id ≠ b.id)

/-- Well-formedness used by C6: every booking's spot row exists and its
start time is set (true of every state the handlers produce: the spot id
is a non-null foreign key and every insertion path fills `start_time`,
by column default at the least). -/
def bookingsResolved (st : St) : Prop :=
  ∀ b ∈ st.bookings, (findSpot st b.spotId).isSome ∧ b.startTime.isSome

/-! ## Concrete states used by witnesses and counterexamples -/

def exAdmin : User :=
  { id := 1, username := "admin", email := "admin@example.com",
    passwordHash := "admin123", active := true,
    fsUniquifier := "0aa-b1b-c2c-d3d", secretQuestionId := 1,
    secretAnswerHash := "admin", roles := ["admin"] }

def exAlice : User :=
  { id := 2, username := "alice", email := "alice@example.com",
    passwordHash := "Secret1!", active := true,
    fsUniquifier := "1111-2222-3333-4444", secretQuestionId := 1,
    secretAnswerHash := "blue", roles := ["user"] }

def exOffline : User :=
  { id := 3, username := "offline_user", email := "offline@example.com",
    passwordHash := "offline", active := true,
    fsUniquifier := "x-y", secretQuestionId := 1,
    secretAnswerHash := "offline", roles := ["user"] }

def exArea : ParkingArea := { id := 1, name := "Lot1", pricePerHour := 20 }

def exCar : Car := { id := 1, licensePlate := "KA01AB1234", userId := 2 }

def exActiveBooking : Booking :=
  { id := 1, userId := 2, carId := 1, spotId := 1, startTime := some ⟨0, true⟩,
    endTime := none, status := .active, totalCost := none }

def exPendingBooking : Booking :=
  { id := 1, userId := 2, carId := 1, spotId := 1, startTime := some ⟨0, true⟩,
    endTime := none, status := .pending, totalCost := none }

def exSpotOcc : ParkingSpot :=
  { id := 1, spotIdentifier := "A-1", status := .occupied, parkingAreaId := 1 }

def exSpotRes : ParkingSpot :=
  { id := 1, spotIdentifier := "A-1", status := .reserved, parkingAreaId := 1 }

/-- One active booking by alice's car on spot A-1. -/
def stActive : St :=
  { users := [exAdmin, exAlice, exOffline], areas := [exArea],
    spots := [exSpotOcc],
    cars := [exCar],
    bookings := [exActiveBooking],
    nextAreaId := 2, nextSpotId := 2, nextCarId := 2, nextBookingId := 2 }

/-- One pending booking by alice's car on reserved spot A-1, with a free
spot A-2 alongside. -/
def stPending : St :=
  { users := [exAdmin, exAlice, exOffline], areas := [exArea],
    spots := [exSpotRes,
              { id := 2, spotIdentifier := "A-2", status := .available,
                parkingAreaId := 1 }],
    cars := [exCar],
    bookings := [exPendingBooking],
    nextAreaId := 2, nextSpotId := 3, nextCarId := 2, nextBookingId := 2 }

/-- Spots `A-1 .. A-10`, with `A-1` already taken: the state after the
first booking request of the spec's determinism scenario. -/
def stTen : St :=
  { users := [exAdmin, exAlice, exOffline], areas := [exArea],
    spots :=
      { id := 1, spotIdentifier := "A-1", status := .reserved, parkingAreaId := 1 } ::
      (List.range 9).map (fun i =>
        ({ id := i + 2, spotIdentifier := "A-" ++ toString (i + 2),
           status := .available, parkingAreaId := 1 } : ParkingSpot)),
    cars := [exCar, { id := 2, licensePlate := "KA02XY9", userId := 2 }],
    bookings := [{ id := 1, userId := 2, carId := 1, spotId := 1,
                   startTime := some ⟨0, true⟩, endTime := none,
                   status := .pending, totalCost := none }],
    nextAreaId := 2, nextSpotId := 11, nextCarId := 3, nextBookingId := 2 }

/-- Admin bookings-API request that duplicates the live booking of car 1
on spot 1 with status `active`. -/
def apiDupArgs : BookingPostArgs :=
  { userId := 2, carId := 1, spotId := 1, startTime := ⟨10, true⟩,
    endTime := none, status := .active, totalCost := none }

/-- Empty database. -/
def stEmpty : St :=
  { users := [], areas := [], spots := [], cars := [], bookings := [],
    nextAreaId := 1, nextSpotId := 1, nextCarId := 1, nextBookingId := 1 }

/-- Area-creation request provisioning three spots `AB-1 .. AB-3`. -/
def exAreaArgs : AreaPostArgs :=
  { name := "L", locationDescription := "d", pricePerHour := 5,
    numSpots := 3, areaCode := "ab" }

/-- A state whose area has no spot rows at all. -/
def stNoSpots : St :=
  { users := [exAdmin, exAlice, exOffline], areas := [exArea], spots := [],
    cars := [exCar], bookings := [],
    nextAreaId := 2, nextSpotId := 1, nextCarId := 2, nextBookingId := 1 }

/-- Admin bookings-API request referencing a spot id (99) for which no
spot row exists: the endpoint performs no existence check and SQLite
enforces no foreign keys by default, so the insert goes through. -/
def apiDanglingArgs : BookingPostArgs :=
  { userId := 2, carId := 1, spotId := 99, startTime := ⟨0, true⟩,
    endTime := none, status := .active, totalCost := none }

/-- The state reached from `stNoSpots` through the unchecked admin
bookings API: alice's car holds an active booking whose spot row does
not exist. -/
def stDangling : St :=
  (apiBookingPost stNoSpots apiDanglingArgs).2

/-! ## General lemmas -/

theorem lexLtChars_irrefl : ∀ l : List Char, lexLtChars l l = false := by
  intro l
  induction l with
  | nil => rfl
  | cons a t ih => simp [lexLtChars, ih]

theorem lexLtChars_trans : ∀ a b c : List Char,
    lexLtChars a b = true → lexLtChars b c = true → lexLtChars a c = true := by
  intro a
  induction a with
  | nil =>
    intro b c hab hbc
    cases b with
    | nil => simp [lexLtChars] at hab
    | cons y ys =>
      cases c with
      | nil => simp [lexLtChars] at hbc
      | cons z zs => simp [lexLtChars]
  | cons x xs ih =>
    intro b c hab hbc
    cases b with
    | nil => simp [lexLtChars] at hab
    | cons y ys =>
      cases c with
      | nil => simp [lexLtChars] at hbc
      | cons z zs =>
        rcases Nat.lt_trichotomy x.toNat y.toNat with hxy | hxy | hxy
        · rcases Nat.lt_trichotomy y.toNat z.toNat with hyz | hyz | hyz
          · simp [lexLtChars, Nat.lt_trans hxy hyz]
          · simp [lexLtChars, show x.toNat < z.toNat from by omega]
          · simp [lexLtChars, Nat.lt_asymm hyz, hyz] at hbc
        · rcases Nat.lt_trichotomy y.toNat z.toNat with hyz | hyz | hyz
          · simp [lexLtChars, show x.toNat < z.toNat from by omega]
          · have hxz : x.toNat = z.toNat := by omega
            simp only [lexLtChars, hxy, Nat.lt_irrefl, if_false] at hab
            simp only [lexLtChars, hyz, Nat.lt_irrefl, if_false] at hbc
            simp only [lexLtChars, hxz, Nat.lt_irrefl, if_false]
            exact ih ys zs hab hbc
          · simp [lexLtChars, Nat.lt_asymm hyz, hyz] at hbc
        · simp [lexLtChars, Nat.lt_asymm hxy, hxy] at hab

theorem lexLtChars_conn : ∀ a b : List Char,
    lexLtChars a b = false → lexLtChars b a = true ∨ a = b := by
  intro a
  induction a with
  | nil =>
    intro b h
    cases b with
    | nil => exact Or.inr rfl
    | cons y ys => simp [lexLtChars] at h
  | cons x xs ih =>
    intro b h
    cases b with
    | nil => exact Or.inl rfl
    | cons y ys =>
      rcases Nat.lt_trichotomy x.toNat y.toNat with hxy | hxy | hxy
      · simp [lexLtChars, hxy] at h
      · have hchar : x = y := Char.ext (UInt32.ext hxy)
        simp only [lexLtChars, hxy, Nat.lt_irrefl, if_false] at h
        rcases ih ys h with h' | h'
        · refine Or.inl ?_
          simp only [lexLtChars, hxy, Nat.lt_irrefl, if_false]
          exact h'
        · exact Or.inr (by rw [hchar, h'])
      · refine Or.inl ?_
        simp [lexLtChars, hxy, Nat.lt_asymm hxy]

theorem identLt_irrefl (s : String) : identLt s s = false :=
  lexLtChars_irrefl s.data

theorem identLt_trans {a b c : String} (h1 : identLt a b = true)
    (h2 : identLt b c = true) : identLt a c = true :=
  lexLtChars_trans a.data b.data c.data h1 h2

theorem identLt_conn {a b : String} (h : identLt a b = false) :
    identLt b a = true ∨ a = b := by
  rcases lexLtChars_conn a.data b.data h with h' | h'
  · exact Or.inl h'
  · exact Or.inr (String.ext h')

theorem minByIdent_mem : ∀ (l : List ParkingSpot) (s : ParkingSpot),
    minByIdent l = some s → s ∈ l := by
  intro l
  induction l with
  | nil => intro s h; simp [minByIdent] at h
  | cons a t ih =>
    intro s h
    cases hm : minByIdent t with
    | none =>
      simp only [minByIdent, hm] at h
      cases h
      exact List.mem_cons_self a t
    | some m =>
      simp only [minByIdent, hm] at h
      split_ifs at h with hlt
      · cases h; exact List.mem_cons_of_mem a (ih _ hm)
      · cases h; exact List.mem_cons_self a t

theorem minByIdent_min : ∀ (l : List ParkingSpot) (s : ParkingSpot),
    minByIdent l = some s →
    ∀ t ∈ l, identLt t.spotIdentifier s.spotIdentifier = false := by
  intro l
  induction l with
  | nil => intro s h; simp [minByIdent] at h
  | cons a r ih =>
    intro s h t ht
    cases hm : minByIdent r with
    | none =>
      have hr : r = [] := by
        cases r with
        | nil => rfl
        | cons b rb =>
          exfalso
          cases h2 : minByIdent rb with
          | none =>
            simp only [minByIdent, h2] at hm
            exact Option.noConfusion hm
          | some m =>
            simp only [minByIdent, h2] at hm
            split_ifs at hm
      subst hr
      simp only [minByIdent, Option.some.injEq] at h
      rw [← h]
      rcases List.mem_singleton.mp ht with rfl
      exact identLt_irrefl _
    | some m =>
      simp only [minByIdent, hm] at h
      have hml := ih m hm
      by_cases hlt : identLt m.spotIdentifier a.spotIdentifier = true
      · rw [if_pos hlt, Option.some.injEq] at h
        rw [← h]
        rcases List.mem_cons.mp ht with rfl | htr
        · -- t is the head: were t below the kept minimum, t < m < t
          cases hta : identLt t.spotIdentifier m.spotIdentifier with
          | false => rfl
          | true =>
            exfalso
            have hl := identLt_trans hta hlt
            rw [identLt_irrefl] at hl
            exact Bool.noConfusion hl
        · exact hml t htr
      · rw [if_neg hlt, Option.some.injEq] at h
        rw [← h]
        have hltf : identLt m.spotIdentifier a.spotIdentifier = false := by
          cases hq : identLt m.spotIdentifier a.spotIdentifier
          · rfl
          · exact absurd hq hlt
        rcases List.mem_cons.mp ht with rfl | htr
        · exact identLt_irrefl _
        · have htm := hml t htr
          cases hta : identLt t.spotIdentifier a.spotIdentifier with
          | false => rfl
          | true =>
            exfalso
            rcases identLt_conn hltf with ham | ham
            · have hl := identLt_trans hta ham
              rw [htm] at hl
              exact Bool.noConfusion hl
            · rw [← ham] at hta
              rw [htm] at hta
              exact Bool.noConfusion hta

theorem minByIdent_of_nil : minByIdent [] = none := rfl

/-- Re-finding a keyed row after the update-by-key map: the updated row
is found, provided the update keeps the key. -/
theorem find?_key_map {α : Type} (key : α → Nat) (k : Nat) (f : α → α) :
    ∀ (l : List α) (b : α), key (f b) = key b →
      l.find? (fun x => key x = k) = some b →
      (l.map (fun x => if key x = k then f x else x)).find?
        (fun x => key x = k) = some (f b) := by
  intro l
  induction l with
  | nil => intro b _ h; simp at h
  | cons a t ih =>
    intro b hk h
    rw [List.map_cons]
    by_cases ha : key a = k
    · rw [List.find?_cons_of_pos _ (by simp [ha])] at h
      have hab : a = b := by injection h
      subst hab
      rw [if_pos ha]
      rw [List.find?_cons_of_pos _ (by simp [hk, ha])]
    · rw [List.find?_cons_of_neg _ (by simp [ha])] at h
      rw [if_neg ha]
      rw [List.find?_cons_of_neg _ (by simp [ha])]
      exact ih b hk h

theorem pySplit_ne_nil (sep : Char) : ∀ l : List Char, pySplit sep l ≠ [] := by
  intro l
  induction l with
  | nil => simp [pySplit]
  | cons c cs ih =>
    simp only [pySplit]
    by_cases hc : c = sep
    · simp [hc]
    · rw [if_neg hc]
      cases hr : pySplit sep cs with
      | nil => exact absurd hr ih
      | cons h t => simp

theorem beforeDashL_cons_ne (c : Char) (l : List Char) (hc : ¬ c = '-') :
    beforeDashL (c :: l) = c :: beforeDashL l := by
  unfold beforeDashL
  cases h : pySplit '-' l with
  | nil => exact absurd h (pySplit_ne_nil _ _)
  | cons a t => simp only [pySplit, if_neg hc, h]

theorem beforeDashL_append : ∀ (xs ys : List Char),
    beforeDashL (xs ++ '-' :: ys) = beforeDashL xs := by
  intro xs ys
  induction xs with
  | nil => simp [beforeDashL, pySplit]
  | cons c cs ih =>
    by_cases hc : c = '-'
    · subst hc
      simp [beforeDashL, pySplit]
    · rw [List.cons_append, beforeDashL_cons_ne c _ hc, beforeDashL_cons_ne c _ hc, ih]

theorem DT.toAware_secs (d : DT) : (DT.toAware d).secs = d.secs := by
  unfold DT.toAware
  split_ifs <;> rfl

theorem DT.toAware_aware (d : DT) : (DT.toAware d).aware = true := by
  unfold DT.toAware
  split_ifs with h
  · exact h
  · rfl

theorem dtSub_toAware (now : Int) (t : DT) :
    dtSub ⟨now, true⟩ (DT.toAware t) = some (now - t.secs) := by
  unfold dtSub
  rw [DT.toAware_aware, DT.toAware_secs]
  simp

/-! ## Case characterizations of the handlers -/

theorem user_book_cases (st : St) (now : Int) (uid : Nat) (adm : Bool)
    (aid cid : Option Nat) :
    user_book st now uid adm aid cid = (Outcome.err, st) ∨
    ∃ a c spot,
      aid = some a ∧ cid = some c ∧
      st.bookings.find? (fun b => b.carId = c && isLive b) = none ∧
      minByIdent (availableSpotsIn st a) = some spot ∧
      user_book st now uid adm aid cid =
        (.ok,
          { updateSpot st spot.id (fun sp => { sp with status := .reserved }) with
            bookings := st.bookings ++
              [{ id := st.nextBookingId, userId := uid, carId := c,
                 spotId := spot.id, startTime := some ⟨now, true⟩,
                 endTime := none, status := .pending, totalCost := none }],
            nextBookingId := st.nextBookingId + 1 }) := by
  unfold user_book
  split
  · exact Or.inl rfl
  · split
    · rename_i a c
      split
      · exact Or.inl rfl
      · split
        · exact Or.inl rfl
        · rename_i car hcar
          split
          · exact Or.inl rfl
          · split
            · exact Or.inl rfl
            · rename_i hnone
              split
              · exact Or.inl rfl
              · rename_i spot hmin
                exact Or.inr ⟨a, c, spot, rfl, rfl,
                  Option.not_isSome_iff_eq_none.mp hnone, hmin, rfl⟩
    · exact Or.inl rfl

theorem offlineBookCore_cases (st : St) (now : Int) (area : ParkingArea) (car : Car)
    (newCar : Option Car) :
    offlineBookCore st now area car newCar = (Outcome.err, st) ∨
    ∃ spot,
      st.bookings.find? (fun b => b.carId = car.id && isLive b) = none ∧
      minByIdent (availableSpotsIn st area.id) = some spot ∧
      offlineBookCore st now area car newCar =
        (.ok,
          { updateSpot { st with
                cars := match newCar with | some c => st.cars ++ [c] | none => st.cars,
                nextCarId := match newCar with
                  | some _ => st.nextCarId + 1 | none => st.nextCarId }
              spot.id (fun sp => { sp with status := .occupied }) with
            bookings := st.bookings ++
              [{ id := st.nextBookingId, userId := car.userId, carId := car.id,
                 spotId := spot.id, startTime := some ⟨now, true⟩,
                 endTime := none, status := .active, totalCost := none }],
            nextBookingId := st.nextBookingId + 1 }) := by
  unfold offlineBookCore
  split
  · exact Or.inl rfl
  · rename_i hns
    split
    · exact Or.inl rfl
    · rename_i spot hmin
      exact Or.inr ⟨spot, Option.not_isSome_iff_eq_none.mp hns, hmin, rfl⟩

theorem admin_offline_book_cases (st : St) (now : Int) (plate : String)
    (aid : Option Nat) :
    admin_offline_book st now plate aid = (Outcome.err, st) ∨
    ∃ (car : Car) (newCar : Option Car) (a : Nat) (area : ParkingArea)
      (spot : ParkingSpot),
      aid = some a ∧ findArea st a = some area ∧
      st.bookings.find? (fun b => b.carId = car.id && isLive b) = none ∧
      minByIdent (availableSpotsIn st area.id) = some spot ∧
      admin_offline_book st now plate aid =
        (.ok,
          { updateSpot { st with
                cars := match newCar with | some c => st.cars ++ [c] | none => st.cars,
                nextCarId := match newCar with
                  | some _ => st.nextCarId + 1 | none => st.nextCarId }
              spot.id (fun sp => { sp with status := .occupied }) with
            bookings := st.bookings ++
              [{ id := st.nextBookingId, userId := car.userId, carId := car.id,
                 spotId := spot.id, startTime := some ⟨now, true⟩,
                 endTime := none, status := .active, totalCost := none }],
            nextBookingId := st.nextBookingId + 1 }) := by
  unfold admin_offline_book
  split
  · exact Or.inl rfl
  · rename_i a
    split
    · exact Or.inl rfl
    · split
      · exact Or.inl rfl
      · rename_i area harea
        split
        · rename_i car hcar
          rcases offlineBookCore_cases st now area car none with h | ⟨spot, h1, h2, h3⟩
          · exact Or.inl h
          · exact Or.inr ⟨car, none, a, area, spot, rfl, harea, h1, h2, h3⟩
        · split
          · exact Or.inl rfl
          · rename_i offlineUser huser
            rcases offlineBookCore_cases st now area
                { id := st.nextCarId, licensePlate := pyUpper (pyStrip plate),
                  userId := offlineUser.id }
                (some { id := st.nextCarId, licensePlate := pyUpper (pyStrip plate),
                        userId := offlineUser.id }) with h | ⟨spot, h1, h2, h3⟩
            · exact Or.inl h
            · exact Or.inr ⟨{ id := st.nextCarId, licensePlate := pyUpper (pyStrip plate),
                              userId := offlineUser.id },
                some { id := st.nextCarId, licensePlate := pyUpper (pyStrip plate),
                       userId := offlineUser.id },
                a, area, spot, rfl, harea, h1, h2, h3⟩

theorem admin_request_approve_cases (st : St) (now : Int) (bid : Nat) :
    (admin_request_approve st now bid = (Outcome.err, st) ∧
      (findBooking st bid = none ∨
        ∃ b, findBooking st bid = some b ∧ b.status ≠ .pending)) ∨
    (∃ b spot, findBooking st bid = some b ∧ b.status = .pending ∧
      findSpot st b.spotId = some spot ∧
      admin_request_approve st now bid =
        (.ok, updateSpot (updateBooking st bid (fun bb =>
            { bb with status := .active, startTime := some ⟨now, true⟩ })) spot.id
          (fun sp => { sp with status := .occupied }))) ∨
    (∃ b, findBooking st bid = some b ∧ b.status = .pending ∧
      findSpot st b.spotId = none ∧
      admin_request_approve st now bid =
        (.err, updateBooking st bid (fun bb =>
          { bb with status := .active, startTime := some ⟨now, true⟩ }))) := by
  unfold admin_request_approve
  split
  · rename_i hbn
    exact Or.inl ⟨rfl, Or.inl hbn⟩
  · rename_i b hb
    split
    · rename_i hnp
      exact Or.inl ⟨rfl, Or.inr ⟨b, hb, hnp⟩⟩
    · rename_i hpend
      have hp : b.status = .pending := of_not_not hpend
      split
      · rename_i spot hspot
        exact Or.inr (Or.inl ⟨b, spot, hb, hp, hspot, rfl⟩)
      · rename_i hspot
        exact Or.inr (Or.inr ⟨b, hb, hp, hspot, rfl⟩)

theorem admin_request_reject_cases (st : St) (bid : Nat) :
    admin_request_reject st bid = (Outcome.err, st) ∨
    (∃ b spot, findBooking st bid = some b ∧ b.status = .pending ∧
      findSpot st b.spotId = some spot ∧
      admin_request_reject st bid =
        (.ok, updateBooking (updateSpot st spot.id
            (fun sp => { sp with status := .available })) bid
          (fun bb => { bb with status := .rejected }))) ∨
    (∃ b, findBooking st bid = some b ∧ b.status = .pending ∧
      findSpot st b.spotId = none ∧
      admin_request_reject st bid =
        (.ok, updateBooking st bid (fun bb => { bb with status := .rejected }))) := by
  unfold admin_request_reject
  split
  · exact Or.inl rfl
  · rename_i b hb
    split
    · exact Or.inl rfl
    · rename_i hpend
      have hp : b.status = .pending := of_not_not hpend
      split
      · rename_i spot hspot
        exact Or.inr (Or.inl ⟨b, spot, hb, hp, hspot, rfl⟩)
      · rename_i hspot
        exact Or.inr (Or.inr ⟨b, hb, hp, hspot, rfl⟩)

theorem user_cancel_pending_cases (st : St) (uid : Nat) (bid : Nat) :
    user_cancel_pending st uid bid = (Outcome.err, st) ∨
    (∃ b spot, findBooking st bid = some b ∧ b.userId = uid ∧ b.status = .pending ∧
      findSpot st b.spotId = some spot ∧
      user_cancel_pending st uid bid =
        (.ok, updateBooking (updateSpot st spot.id
            (fun sp => { sp with status := .available })) bid
          (fun bb => { bb with status := .rejected }))) ∨
    (∃ b, findBooking st bid = some b ∧ b.userId = uid ∧ b.status = .pending ∧
      findSpot st b.spotId = none ∧
      user_cancel_pending st uid bid =
        (.ok, updateBooking st bid (fun bb => { bb with status := .rejected }))) := by
  unfold user_cancel_pending
  split
  · exact Or.inl rfl
  · rename_i b hb
    split
    · exact Or.inl rfl
    · rename_i hguard
      have hg : b.userId = uid ∧ b.status = .pending := by
        simpa [not_or] using hguard
      split
      · rename_i spot hspot
        exact Or.inr (Or.inl ⟨b, spot, hb, hg.1, hg.2, hspot, rfl⟩)
      · rename_i hspot
        exact Or.inr (Or.inr ⟨b, hb, hg.1, hg.2, hspot, rfl⟩)

theorem user_release_cases (st : St) (now : Int) (uid : Nat) (bid : Nat) :
    user_release st now uid bid = (Outcome.err, st) ∨
    (∃ b spot area t,
      findBooking st bid = some b ∧ b.userId = uid ∧ b.status ≠ .completed ∧
      findSpot st b.spotId = some spot ∧ b.startTime = some t ∧
      findArea st spot.parkingAreaId = some area ∧
      user_release st now uid bid =
        (.ok, updateSpot (updateBooking st bid (fun _ =>
            { b with
              status := .completed
              endTime := some ⟨now, true⟩
              totalCost := some (round2
                ((max 1 ⌈((now - t.secs : Int) : Rat) / 3600⌉ : Int) *
                  area.pricePerHour)) }))
          spot.id (fun sp => { sp with status := .available }))) ∨
    (∃ b, findBooking st bid = some b ∧ b.userId = uid ∧ b.status ≠ .completed ∧
      ((findSpot st b.spotId) = none ∨ b.startTime = none) ∧
      user_release st now uid bid =
        (.err, updateBooking st bid (fun _ =>
          { b with status := .completed, endTime := some ⟨now, true⟩ }))) := by
  unfold user_release
  split
  · exact Or.inl rfl
  · rename_i b hb
    split
    · exact Or.inl rfl
    · rename_i huid
      have hu : b.userId = uid := of_not_not huid
      split
      · exact Or.inl rfl
      · rename_i hnc
        split
        · rename_i spot start hspot hstart
          rcases Option.map_eq_some'.mp hstart with ⟨t, ht, hft⟩
          subst hft
          split
          · exact Or.inl rfl
          · rename_i area harea
            split
            · rename_i hsub
              rw [dtSub_toAware] at hsub
              exact absurd hsub (by simp)
            · rename_i elapsed hsub
              rw [dtSub_toAware] at hsub
              have he : elapsed = now - t.secs := by simpa using hsub.symm
              subst he
              exact Or.inr (Or.inl ⟨b, spot, area, t, hb, hu, hnc, hspot, ht,
                harea, rfl⟩)
        · rename_i hpartial
          have hdisj : findSpot st b.spotId = none ∨ b.startTime = none := by
            rcases hsp : findSpot st b.spotId with _ | spot
            · exact Or.inl rfl
            · rcases ht : b.startTime with _ | t
              · exact Or.inr rfl
              · exfalso
                exact hpartial spot (DT.toAware t) hsp (by simp [ht])
          exact Or.inr (Or.inr ⟨b, hb, hu, hnc, hdisj, rfl⟩)

theorem admin_offline_release_cases (st : St) (now : Int) (bid : Nat) :
    admin_offline_release st now bid = (Outcome.err, st) ∨
    (∃ b spot area t, findBooking st bid = some b ∧ b.status = .active ∧
      findSpot st b.spotId = some spot ∧ b.startTime = some t ∧
      findArea st spot.parkingAreaId = some area ∧
      admin_offline_release st now bid =
        (.ok, updateSpot (updateBooking st bid (fun _ =>
            { b with
              status := .completed
              endTime := some ⟨now, true⟩
              totalCost := some (round2
                ((max 1 ⌈((now - t.secs : Int) : Rat) / 3600⌉ : Int) *
                  area.pricePerHour)) }))
          spot.id (fun sp => { sp with status := .available }))) ∨
    (∃ b, findBooking st bid = some b ∧ b.status = .active ∧
      findSpot st b.spotId = none ∧
      admin_offline_release st now bid =
        (.ok, updateBooking st bid (fun _ =>
          { b with status := .completed, endTime := some ⟨now, true⟩ }))) ∨
    (∃ b spot, findBooking st bid = some b ∧ b.status = .active ∧
      findSpot st b.spotId = some spot ∧ b.startTime = none ∧
      admin_offline_release st now bid =
        (.ok, updateSpot (updateBooking st bid (fun _ =>
            { b with status := .completed, endTime := some ⟨now, true⟩ }))
          spot.id (fun sp => { sp with status := .available }))) := by
  unfold admin_offline_release
  split
  · exact Or.inl rfl
  · rename_i b hb
    split
    · exact Or.inl rfl
    · rename_i hact
      have ha : b.status = .active := of_not_not hact
      split
      · rename_i hspot
        exact Or.inr (Or.inr (Or.inl ⟨b, hb, ha, hspot, rfl⟩))
      · rename_i spot hspot
        split
        · rename_i hstart
          have ht : b.startTime = none := Option.map_eq_none'.mp hstart
          exact Or.inr (Or.inr (Or.inr ⟨b, spot, hb, ha, hspot, ht, rfl⟩))
        · rename_i start hstart
          rcases Option.map_eq_some'.mp hstart with ⟨t, ht, hft⟩
          subst hft
          split
          · exact Or.inl rfl
          · rename_i area harea
            split
            · rename_i hsub
              rw [dtSub_toAware] at hsub
              exact absurd hsub (by simp)
            · rename_i elapsed hsub
              rw [dtSub_toAware] at hsub
              have he : elapsed = now - t.secs := by simpa using hsub.symm
              subst he
              exact Or.inr (Or.inl ⟨b, spot, area, t, hb, ha, hspot, ht,
                harea, rfl⟩)

/-! ## Bridging lemmas -/

theorem isLive_of_active {b : Booking} (h : b.status = .active) :
    isLive b = true := by
  simp [isLive, h]

theorem isLive_of_pending {b : Booking} (h : b.status = .pending) :
    isLive b = true := by
  simp [isLive, h]

/-- With pairwise-distinct ids, two members with the same id coincide. -/
theorem mem_eq_of_ids {l : List Booking}
    (hids : l.Pairwise (fun a b => a.id ≠ b.id))
    {a b : Booking} (ha : a ∈ l) (hb : b ∈ l) (h : a.id = b.id) : a = b := by
  by_contra hne
  exact absurd h
    (List.Pairwise.forall (fun x y hxy => Ne.symm hxy) hids ha hb hne)

/-- The status update applied by `admin_request_approve` keeps every
other field. -/
theorem approveMap_spotId (bid : Nat) (now : Int) (x : Booking) :
    ((fun bb => if bb.id = bid then
        ({ bb with status := BookingStatus.active,
                   startTime := some ⟨now, true⟩ } : Booking)
      else bb) x).spotId = x.spotId := by
  by_cases h : x.id = bid <;> simp [h]

theorem spot_of_min_available {st : St} {aid : Nat} {spot : ParkingSpot}
    (hmin : minByIdent (availableSpotsIn st aid) = some spot) :
    spot ∈ st.spots ∧ spot.parkingAreaId = aid ∧
      spot.status = SpotStatus.available := by
  have hmem := minByIdent_mem _ _ hmin
  rw [availableSpotsIn, List.mem_filter] at hmem
  refine ⟨hmem.1, ?_, ?_⟩
  · have := hmem.2
    simp only [Bool.and_eq_true, decide_eq_true_eq] at this
    exact this.1
  · have := hmem.2
    simp only [Bool.and_eq_true, decide_eq_true_eq] at this
    exact this.2

/-! ## Claim theorems -/

/-- C1: for every booking that transitions into the completed state (via
the user release route or the admin offline release) and has a spot (with
its area) and a start time, the resulting total cost equals
`round(max(1, ceil((end_time - start_time in seconds) / 3600)) *
area.price_per_hour, 2)`, with `end_time = now`: every session is billed
at least one hour, partial hours round up, and a naive start time is
treated as UTC before the subtraction (the cost depends only on the
stored seconds `t.secs`, whatever the awareness flag of `t`). -/
theorem C1_completed_cost :
    (∀ (st : St) (now : Int) (uid bid : Nat) (b : Booking) (spot : ParkingSpot)
       (area : ParkingArea) (t : DT),
      findBooking st bid = some b →
      findSpot st b.spotId = some spot →
      b.startTime = some t →
      findArea st spot.parkingAreaId = some area →
      (user_release st now uid bid).1 = .ok →
      findBooking (user_release st now uid bid).2 bid = some
        { b with
          status := .completed
          endTime := some ⟨now, true⟩
          totalCost := some (round2
            ((max 1 ⌈((now - t.secs : Int) : Rat) / 3600⌉ : Int) *
              area.pricePerHour)) }) ∧
    (∀ (st : St) (now : Int) (bid : Nat) (b : Booking) (spot : ParkingSpot)
       (area : ParkingArea) (t : DT),
      findBooking st bid = some b →
      findSpot st b.spotId = some spot →
      b.startTime = some t →
      findArea st spot.parkingAreaId = some area →
      (admin_offline_release st now bid).1 = .ok →
      findBooking (admin_offline_release st now bid).2 bid = some
        { b with
          status := .completed
          endTime := some ⟨now, true⟩
          totalCost := some (round2
            ((max 1 ⌈((now - t.secs : Int) : Rat) / 3600⌉ : Int) *
              area.pricePerHour)) }) := by
  constructor
  · intro st now uid bid b spot area t hb hspot hstart harea hok
    rcases user_release_cases st now uid bid with h |
      ⟨b', spot', area', t', hb', _, _, hsp', ht', ha', heq⟩ |
      ⟨b', hb', _, _, hdisj, heq⟩
    · rw [h] at hok
      exact absurd hok (by simp)
    · have hbb : b = b' := by
        have hx := hb.symm.trans hb'
        injection hx
      subst hbb
      have hss : spot = spot' := by
        have hx := hspot.symm.trans hsp'
        injection hx
      subst hss
      have htt : t = t' := by
        have hx := hstart.symm.trans ht'
        injection hx
      subst htt
      have haa : area = area' := by
        have hx := harea.symm.trans ha'
        injection hx
      subst haa
      rw [heq]
      exact find?_key_map Booking.id bid _ st.bookings b rfl hb
    · rw [heq] at hok
      exact absurd hok (by simp)
  · intro st now bid b spot area t hb hspot hstart harea hok
    rcases admin_offline_release_cases st now bid with h |
      ⟨b', spot', area', t', hb', _, hsp', ht', ha', heq⟩ |
      ⟨b', hb', _, hsp', heq⟩ |
      ⟨b', spot', hb', _, hsp', ht', heq⟩
    · rw [h] at hok
      exact absurd hok (by simp)
    · have hbb : b = b' := by
        have hx := hb.symm.trans hb'
        injection hx
      subst hbb
      have hss : spot = spot' := by
        have hx := hspot.symm.trans hsp'
        injection hx
      subst hss
      have htt : t = t' := by
        have hx := hstart.symm.trans ht'
        injection hx
      subst htt
      have haa : area = area' := by
        have hx := harea.symm.trans ha'
        injection hx
      subst haa
      rw [heq]
      exact find?_key_map Booking.id bid _ st.bookings b rfl hb
    · have hbb : b = b' := by
        have hx := hb.symm.trans hb'
        injection hx
      subst hbb
      rw [hspot] at hsp'
      exact absurd hsp' (by simp)
    · have hbb : b = b' := by
        have hx := hb.symm.trans hb'
        injection hx
      subst hbb
      rw [hstart] at ht'
      exact absurd ht' (by simp)

/-- C1 witness: releasing alice's active booking after 70 minutes at
price 20 per hour bills two hours, total cost 40. -/
theorem C1_completed_cost_witness :
    findBooking stActive 1 = some exActiveBooking ∧
    findSpot stActive exActiveBooking.spotId = some exSpotOcc ∧
    exActiveBooking.startTime = some ⟨0, true⟩ ∧
    findArea stActive exSpotOcc.parkingAreaId = some exArea ∧
    (user_release stActive 4200 2 1).1 = .ok ∧
    findBooking (user_release stActive 4200 2 1).2 1 = some
      { exActiveBooking with
        status := .completed
        endTime := some ⟨4200, true⟩
        totalCost := some (round2
          ((max 1 ⌈((4200 - (0 : Int) : Int) : Rat) / 3600⌉ : Int) *
            exArea.pricePerHour)) } :=
  ⟨by decide, by decide, by decide, by decide, by decide,
    C1_completed_cost.1 stActive 4200 2 1 exActiveBooking exSpotOcc exArea
      ⟨0, true⟩ (by decide) (by decide) (by decide) (by decide) (by decide)⟩

/-- C5: when an admin approves a booking whose status is pending, the
booking becomes active, its start time is set to the current time, and
the referenced spot becomes occupied. -/
theorem C5_approve_effect (st : St) (now : Int) (bid : Nat) (b : Booking)
    (spot : ParkingSpot)
    (hb : findBooking st bid = some b)
    (hpend : b.status = .pending)
    (hspot : findSpot st b.spotId = some spot) :
    (admin_request_approve st now bid).1 = .ok ∧
    findBooking (admin_request_approve st now bid).2 bid =
      some { b with status := .active, startTime := some ⟨now, true⟩ } ∧
    findSpot (admin_request_approve st now bid).2 spot.id =
      some { spot with status := .occupied } := by
  have hspot0 : st.spots.find? (fun s => s.id = b.spotId) = some spot := hspot
  have hkey : spot.id = b.spotId := by
    have hx := List.find?_some hspot0
    simpa using hx
  have hspot' : st.spots.find? (fun s => s.id = spot.id) = some spot := by
    rw [← hkey] at hspot0
    exact hspot0
  rcases admin_request_approve_cases st now bid with ⟨_, h⟩ |
    ⟨b', spot', hb', hp', hsp', heq⟩ | ⟨b', hb', hp', hsp', heq⟩
  · exfalso
    rcases h with h | ⟨b'', hb'', hs''⟩
    · rw [hb] at h
      exact Option.noConfusion h
    · have hbb : b = b'' := by
        have hx := hb.symm.trans hb''
        injection hx
      subst hbb
      exact hs'' hpend
  · have hbb : b = b' := by
      have hx := hb.symm.trans hb'
      injection hx
    subst hbb
    have hss : spot = spot' := by
      have hx := hspot.symm.trans hsp'
      injection hx
    subst hss
    rw [heq]
    refine ⟨rfl, ?_, ?_⟩
    · exact find?_key_map Booking.id bid _ st.bookings b rfl hb
    · exact find?_key_map ParkingSpot.id spot.id _ st.spots spot rfl hspot'
  · have hbb : b = b' := by
      have hx := hb.symm.trans hb'
      injection hx
    subst hbb
    rw [hspot] at hsp'
    exact Option.noConfusion hsp'

/-- C5 witness: approving alice's pending booking at time 100 activates
it, stamps the start time, and occupies spot A-1. -/
theorem C5_approve_effect_witness :
    findBooking stPending 1 = some exPendingBooking ∧
    exPendingBooking.status = .pending ∧
    findSpot stPending exPendingBooking.spotId = some exSpotRes ∧
    (admin_request_approve stPending 100 1).1 = .ok ∧
    findBooking (admin_request_approve stPending 100 1).2 1 =
      some { exPendingBooking with status := .active,
                                   startTime := some ⟨100, true⟩ } ∧
    findSpot (admin_request_approve stPending 100 1).2 exSpotRes.id =
      some { exSpotRes with status := .occupied } := by
  have h := C5_approve_effect stPending 100 1 exPendingBooking exSpotRes
    (by decide) (by decide) (by decide)
  exact ⟨by decide, by decide, by decide, h.1, h.2.1, h.2.2⟩

/-- C2 counterexample: with spots `A-1 .. A-10` and `A-1` taken, the
selection query (`ORDER BY spot_identifier ASC LIMIT 1`, byte-wise TEXT
order) picks `A-10`, although `A-2` is available and strictly smaller in
the numeric-aware order the claim asserts — so the chosen spot is not the
numeric-aware minimum, and the second request books `A-10`, not `A-2`. -/
theorem C2_counterexample :
    minByIdent (availableSpotsIn stTen 1) =
      some { id := 10, spotIdentifier := "A-10", status := .available,
             parkingAreaId := 1 } ∧
    ({ id := 2, spotIdentifier := "A-2", status := .available,
       parkingAreaId := 1 } : ParkingSpot) ∈ availableSpotsIn stTen 1 ∧
    numericAwareLt "A-2" "A-10" = true ∧
    (user_book stTen 50 2 false (some 1) (some 2)).2.bookings.getLast? =
      some { id := 2, userId := 2, carId := 2, spotId := 10,
             startTime := some ⟨50, true⟩, endTime := none,
             status := .pending, totalCost := none } :=
  ⟨by decide, by decide, by decide, by decide⟩

/-- C2 (amended): whenever a new booking is assigned a spot — by the
user self-service request or by the admin offline booking — the chosen
spot is the available spot of the target area with the smallest
identifier under plain byte-wise lexicographic string order (not the
numeric-aware order): the selection both routes use is the `identLt`
minimum of the available spots, and every successful booking through
either route books exactly that spot. -/
theorem C2_lex_selection :
    (∀ (st : St) (aid : Nat) (spot : ParkingSpot),
      minByIdent (availableSpotsIn st aid) = some spot →
      spot ∈ st.spots ∧ spot.parkingAreaId = aid ∧
        spot.status = SpotStatus.available ∧
        ∀ t ∈ st.spots, t.parkingAreaId = aid →
          t.status = SpotStatus.available →
          identLt t.spotIdentifier spot.spotIdentifier = false) ∧
    (∀ (st : St) (now : Int) (uid : Nat) (adm : Bool) (aid cid : Option Nat),
      (user_book st now uid adm aid cid).1 = .ok →
      ∃ a c spot, aid = some a ∧ cid = some c ∧
        minByIdent (availableSpotsIn st a) = some spot ∧
        (user_book st now uid adm aid cid).2.bookings.getLast? =
          some { id := st.nextBookingId, userId := uid, carId := c,
                 spotId := spot.id, startTime := some ⟨now, true⟩,
                 endTime := none, status := .pending, totalCost := none }) ∧
    (∀ (st : St) (now : Int) (plate : String) (aid : Option Nat),
      (admin_offline_book st now plate aid).1 = .ok →
      ∃ a area spot, aid = some a ∧ findArea st a = some area ∧
        minByIdent (availableSpotsIn st area.id) = some spot ∧
        ∃ b, (admin_offline_book st now plate aid).2.bookings.getLast? =
          some b ∧ b.spotId = spot.id ∧ b.status = .active) := by
  refine ⟨?_, ?_, ?_⟩
  · intro st aid spot hmin
    obtain ⟨hmem, harea, hstat⟩ := spot_of_min_available hmin
    refine ⟨hmem, harea, hstat, ?_⟩
    intro t ht hta hts
    refine minByIdent_min _ _ hmin t ?_
    rw [availableSpotsIn, List.mem_filter]
    exact ⟨ht, by simp [hta, hts]⟩
  · intro st now uid adm aid cid hok
    rcases user_book_cases st now uid adm aid cid with heq |
      ⟨a, c, spot, haid, hcid, hfind, hmin, heq⟩
    · rw [heq] at hok
      exact absurd hok (by simp)
    · refine ⟨a, c, spot, haid, hcid, hmin, ?_⟩
      rw [heq]
      exact List.getLast?_concat _
  · intro st now plate aid hok
    rcases admin_offline_book_cases st now plate aid with heq |
      ⟨car, newCar, a, area, spot, haid, harea, hfind, hmin, heq⟩
    · rw [heq] at hok
      exact absurd hok (by simp)
    · refine ⟨a, area, spot, haid, harea, hmin,
        { id := st.nextBookingId, userId := car.userId, carId := car.id,
          spotId := spot.id, startTime := some ⟨now, true⟩, endTime := none,
          status := .active, totalCost := none }, ?_, rfl, rfl⟩
      rw [heq]
      exact List.getLast?_concat _

/-- C2 witness: in the ten-spot state with `A-1` taken, a second
self-service booking and an offline walk-in booking both succeed and
both book `A-10`, the lexicographic minimum of the available spots. -/
theorem C2_lex_selection_witness :
    minByIdent (availableSpotsIn stTen 1) =
      some { id := 10, spotIdentifier := "A-10", status := .available,
             parkingAreaId := 1 } ∧
    (user_book stTen 50 2 false (some 1) (some 2)).1 = .ok ∧
    (∃ a c spot, (some 1 : Option Nat) = some a ∧
      (some 2 : Option Nat) = some c ∧
      minByIdent (availableSpotsIn stTen a) = some spot ∧
      (user_book stTen 50 2 false (some 1) (some 2)).2.bookings.getLast? =
        some { id := stTen.nextBookingId, userId := 2, carId := c,
               spotId := spot.id, startTime := some ⟨50, true⟩,
               endTime := none, status := .pending, totalCost := none }) ∧
    (admin_offline_book stTen 60 "KA09ZZ1" (some 1)).1 = .ok ∧
    (∃ a area spot, (some 1 : Option Nat) = some a ∧
      findArea stTen a = some area ∧
      minByIdent (availableSpotsIn stTen area.id) = some spot ∧
      ∃ b, (admin_offline_book stTen 60 "KA09ZZ1" (some 1)).2.bookings.getLast? =
        some b ∧ b.spotId = spot.id ∧ b.status = .active) :=
  ⟨by decide, by decide,
    C2_lex_selection.2.1 stTen 50 2 false (some 1) (some 2) (by decide),
    by decide,
    C2_lex_selection.2.2 stTen 60 "KA09ZZ1" (some 1) (by decide)⟩

/-! ## No-op guards (helpers for C3) -/

theorem approve_nonpending_noop (st : St) (now : Int) (bid : Nat) (b : Booking)
    (hb : findBooking st bid = some b) (hnp : b.status ≠ .pending) :
    admin_request_approve st now bid = (.err, st) := by
  unfold admin_request_approve
  simp only [hb]
  rw [if_pos hnp]

theorem reject_nonpending_noop (st : St) (bid : Nat) (b : Booking)
    (hb : findBooking st bid = some b) (hnp : b.status ≠ .pending) :
    admin_request_reject st bid = (.err, st) := by
  unfold admin_request_reject
  simp only [hb]
  rw [if_pos hnp]

theorem offline_release_nonactive_noop (st : St) (now : Int) (bid : Nat)
    (b : Booking) (hb : findBooking st bid = some b)
    (hna : b.status ≠ .active) :
    admin_offline_release st now bid = (.err, st) := by
  unfold admin_offline_release
  simp only [hb]
  rw [if_pos hna]

theorem user_release_completed_noop (st : St) (now : Int) (uid bid : Nat)
    (b : Booking) (hb : findBooking st bid = some b) (hu : b.userId = uid)
    (hc : b.status = .completed) :
    user_release st now uid bid = (.err, st) := by
  unfold user_release
  simp only [hb]
  rw [if_neg (by simp [hu])]
  rw [if_pos hc]

/-- C3 counterexample: `user_release` guards only against an already
completed booking, so releasing a booking whose status is pending — not
active — is applied rather than rejected: the request succeeds and the
state changes (the booking is completed and billed). -/
theorem C3_counterexample :
    (findBooking stPending 1).map Booking.status =
      some BookingStatus.pending ∧
    (user_release stPending 50 2 1).1 = Outcome.ok ∧
    (user_release stPending 50 2 1).2 ≠ stPending :=
  ⟨by decide, by decide, by decide⟩

/-- C3 (amended): approving or rejecting a booking whose status is not
pending, releasing through the admin offline route a booking whose
status is not active, and releasing through the user route a booking
that is already completed, are all rejected as no-ops leaving the state
unchanged; in particular applying approve, reject or release a second
time after a successful application changes nothing.  (The user release
route, however, guards only on `completed`: a pending or rejected
booking can be released — see the counterexample.) -/
theorem C3_idempotent_guards :
    (∀ (st : St) (now : Int) (bid : Nat) (b : Booking),
      findBooking st bid = some b → b.status ≠ .pending →
      admin_request_approve st now bid = (.err, st)) ∧
    (∀ (st : St) (bid : Nat) (b : Booking),
      findBooking st bid = some b → b.status ≠ .pending →
      admin_request_reject st bid = (.err, st)) ∧
    (∀ (st : St) (now : Int) (bid : Nat) (b : Booking),
      findBooking st bid = some b → b.status ≠ .active →
      admin_offline_release st now bid = (.err, st)) ∧
    (∀ (st : St) (now : Int) (uid bid : Nat) (b : Booking),
      findBooking st bid = some b → b.userId = uid → b.status = .completed →
      user_release st now uid bid = (.err, st)) ∧
    (∀ (st : St) (now now' : Int) (uid bid : Nat),
      (user_release st now uid bid).1 = .ok →
      user_release (user_release st now uid bid).2 now' uid bid =
        (.err, (user_release st now uid bid).2)) ∧
    (∀ (st : St) (now now' : Int) (bid : Nat),
      (admin_request_approve st now bid).1 = .ok →
      admin_request_approve (admin_request_approve st now bid).2 now' bid =
        (.err, (admin_request_approve st now bid).2)) ∧
    (∀ (st : St) (bid : Nat),
      (admin_request_reject st bid).1 = .ok →
      admin_request_reject (admin_request_reject st bid).2 bid =
        (.err, (admin_request_reject st bid).2)) := by
  refine ⟨approve_nonpending_noop, reject_nonpending_noop,
    offline_release_nonactive_noop, user_release_completed_noop, ?_, ?_, ?_⟩
  · intro st now now' uid bid hok
    rcases user_release_cases st now uid bid with h |
      ⟨b, spot, area, t, hb, hu, _, _, _, _, heq⟩ | ⟨b, _, _, _, _, heq⟩
    · rw [h] at hok
      exact absurd hok (by simp)
    · have hfindS : findBooking (user_release st now uid bid).2 bid = some
          { b with
            status := .completed
            endTime := some ⟨now, true⟩
            totalCost := some (round2
              ((max 1 ⌈((now - t.secs : Int) : Rat) / 3600⌉ : Int) *
                area.pricePerHour)) } := by
        rw [heq]
        exact find?_key_map Booking.id bid _ st.bookings b rfl hb
      exact user_release_completed_noop _ now' uid bid _ hfindS hu rfl
    · rw [heq] at hok
      exact absurd hok (by simp)
  · intro st now now' bid hok
    rcases admin_request_approve_cases st now bid with ⟨h, _⟩ |
      ⟨b, spot, hb, hp, hspot, heq⟩ | ⟨b, hb, hp, hspot, heq⟩
    · rw [h] at hok
      exact absurd hok (by simp)
    · have hfindS : findBooking (admin_request_approve st now bid).2 bid =
          some { b with status := .active, startTime := some ⟨now, true⟩ } := by
        rw [heq]
        exact find?_key_map Booking.id bid _ st.bookings b rfl hb
      exact approve_nonpending_noop _ now' bid _ hfindS (by simp)
    · rw [heq] at hok
      exact absurd hok (by simp)
  · intro st bid hok
    rcases admin_request_reject_cases st bid with h |
      ⟨b, spot, hb, hp, hspot, heq⟩ | ⟨b, hb, hp, hspot, heq⟩
    · rw [h] at hok
      exact absurd hok (by simp)
    · have hfindS : findBooking (admin_request_reject st bid).2 bid =
          some { b with status := .rejected } := by
        rw [heq]
        exact find?_key_map Booking.id bid _ st.bookings b rfl hb
      exact reject_nonpending_noop _ bid _ hfindS (by simp)
    · have hfindS : findBooking (admin_request_reject st bid).2 bid =
          some { b with status := .rejected } := by
        rw [heq]
        exact find?_key_map Booking.id bid _ st.bookings b rfl hb
      exact reject_nonpending_noop _ bid _ hfindS (by simp)

/-- C3 witness: rejecting the already active booking of `stActive` is a
no-op, and a successful release of that booking followed by a second
release attempt leaves the released state unchanged. -/
theorem C3_idempotent_guards_witness :
    findBooking stActive 1 = some exActiveBooking ∧
    exActiveBooking.status ≠ .pending ∧
    admin_request_reject stActive 1 = (.err, stActive) ∧
    (user_release stActive 4200 2 1).1 = .ok ∧
    user_release (user_release stActive 4200 2 1).2 9999 2 1 =
      (.err, (user_release stActive 4200 2 1).2) :=
  ⟨by decide, by decide,
    C3_idempotent_guards.2.1 stActive 1 exActiveBooking (by decide) (by decide),
    by decide,
    C3_idempotent_guards.2.2.2.2.1 stActive 4200 9999 2 1 (by decide)⟩

/-- Helper for C7: the booking-list map applied by
`admin_request_approve` keeps the at-most-one-active-per-spot property,
given pairwise-distinct ids and at most one live booking per spot. -/
theorem approve_map_pairwise (st : St) (now : Int) (bid : Nat) (b : Booking)
    (hb : findBooking st bid = some b) (hp : b.status = .pending)
    (hids : bookingIdsNodup st) (hlive : perSpotLive st) :
    (st.bookings.map (fun bb => if bb.id = bid then
        ({ bb with status := BookingStatus.active,
                   startTime := some ⟨now, true⟩ } : Booking)
      else bb)).Pairwise
      (fun a b => a.status = BookingStatus.active →
        b.status = BookingStatus.active → a.spotId ≠ b.spotId) := by
  have hbmem : b ∈ st.bookings := List.mem_of_find?_eq_some hb
  have hbid : b.id = bid := by
    have hx := List.find?_some hb
    simpa using hx
  rw [List.pairwise_map]
  refine List.Pairwise.imp_of_mem ?_ (List.Pairwise.and hids hlive)
  intro x y hx hy hxy
  rcases hxy with ⟨hidne, hliv⟩
  intro h1 h2
  rw [approveMap_spotId, approveMap_spotId] at *
  have hlx : isLive x = true := by
    by_cases hxid : x.id = bid
    · have hxb : x = b := mem_eq_of_ids hids hx hbmem (hxid.trans hbid.symm)
      rw [hxb]
      exact isLive_of_pending hp
    · rw [if_neg hxid] at h1
      exact isLive_of_active h1
  have hly : isLive y = true := by
    by_cases hyid : y.id = bid
    · have hyb : y = b := mem_eq_of_ids hids hy hbmem (hyid.trans hbid.symm)
      rw [hyb]
      exact isLive_of_pending hp
    · rw [if_neg hyid] at h2
      exact isLive_of_active h2
  exact hliv hlx hly

/-- C4 counterexample: in a state where car 1 has exactly one live
booking, the admin bookings API inserts a second active booking for the
same car without any check, violating the per-car invariant — so not
every booking-creating operation preserves it. -/
theorem C4_counterexample :
    perCarLive stActive ∧
    ¬ perCarLive (apiBookingPost stActive apiDupArgs).2 := by
  constructor
  · unfold perCarLive
    decide
  · unfold perCarLive
    decide

/-- C4 (amended): the two booking-creating routes that check the car —
the user self-service request and the admin offline booking — preserve
the invariant that no two live (active or pending) bookings reference
the same car; the admin bookings API performs no such check and can
violate it (see the counterexample). -/
theorem C4_per_car_live :
    (∀ (st : St) (now : Int) (uid : Nat) (adm : Bool) (aid cid : Option Nat),
      perCarLive st → perCarLive ((user_book st now uid adm aid cid).2)) ∧
    (∀ (st : St) (now : Int) (plate : String) (aid : Option Nat),
      perCarLive st → perCarLive ((admin_offline_book st now plate aid).2)) := by
  constructor
  · intro st now uid adm aid cid h
    rcases user_book_cases st now uid adm aid cid with heq |
      ⟨a, c, spot, _, _, hfind, hmin, heq⟩
    · rw [heq]
      exact h
    · rw [heq]
      unfold perCarLive
      rw [List.pairwise_append]
      refine ⟨h, List.pairwise_singleton _ _, ?_⟩
      intro x hx y hy
      have hyb := List.mem_singleton.mp hy
      subst hyb
      intro hlx _ hcc
      have hno := List.find?_eq_none.mp hfind x hx
      simp only [Bool.and_eq_true, decide_eq_true_eq, not_and] at hno
      exact hno (by simpa using hcc) hlx
  · intro st now plate aid h
    rcases admin_offline_book_cases st now plate aid with heq |
      ⟨car, newCar, a, area, spot, _, _, hfind, hmin, heq⟩
    · rw [heq]
      exact h
    · rw [heq]
      unfold perCarLive
      rw [List.pairwise_append]
      refine ⟨h, List.pairwise_singleton _ _, ?_⟩
      intro x hx y hy
      have hyb := List.mem_singleton.mp hy
      subst hyb
      intro hlx _ hcc
      have hno := List.find?_eq_none.mp hfind x hx
      simp only [Bool.and_eq_true, decide_eq_true_eq, not_and] at hno
      exact hno (by simpa using hcc) hlx

/-- C4 witness: booking a second car in the ten-spot state preserves the
per-car invariant. -/
theorem C4_per_car_live_witness :
    perCarLive stTen ∧
    perCarLive ((user_book stTen 50 2 false (some 1) (some 2)).2) :=
  ⟨by unfold perCarLive; decide,
    C4_per_car_live.1 stTen 50 2 false (some 1) (some 2)
      (by unfold perCarLive; decide)⟩

/-- C7 counterexample: in a state where spot 1 carries exactly one
active booking, the admin bookings API inserts a second active booking
on the same spot without any check, violating the per-spot invariant —
so not every operation that creates or activates a booking preserves
it. -/
theorem C7_counterexample :
    perSpotActive stActive ∧
    ¬ perSpotActive (apiBookingPost stActive apiDupArgs).2 := by
  constructor
  · unfold perSpotActive
    decide
  · unfold perSpotActive
    decide

/-- C7 (amended): at most one active booking per spot is preserved by
the user self-service request unconditionally, by the admin offline
booking in states where available spots carry no live booking, and by
the admin approval in states with distinct booking ids and at most one
live booking per spot; the admin bookings API performs no check and can
violate the invariant (see the counterexample). -/
theorem C7_per_spot_active :
    (∀ (st : St) (now : Int) (uid : Nat) (adm : Bool) (aid cid : Option Nat),
      perSpotActive st → perSpotActive ((user_book st now uid adm aid cid).2)) ∧
    (∀ (st : St) (now : Int) (plate : String) (aid : Option Nat),
      perSpotActive st → availNoLive st →
      perSpotActive ((admin_offline_book st now plate aid).2)) ∧
    (∀ (st : St) (now : Int) (bid : Nat),
      bookingIdsNodup st → perSpotLive st →
      perSpotActive ((admin_request_approve st now bid).2)) := by
  refine ⟨?_, ?_, ?_⟩
  · intro st now uid adm aid cid h
    rcases user_book_cases st now uid adm aid cid with heq |
      ⟨a, c, spot, _, _, hfind, hmin, heq⟩
    · rw [heq]
      exact h
    · rw [heq]
      unfold perSpotActive
      rw [List.pairwise_append]
      refine ⟨h, List.pairwise_singleton _ _, ?_⟩
      intro x hx y hy
      have hyb := List.mem_singleton.mp hy
      subst hyb
      intro _ habs
      exact absurd habs (by simp)
  · intro st now plate aid h hanl
    rcases admin_offline_book_cases st now plate aid with heq |
      ⟨car, newCar, a, area, spot, _, _, hfind, hmin, heq⟩
    · rw [heq]
      exact h
    · rw [heq]
      unfold perSpotActive
      rw [List.pairwise_append]
      refine ⟨h, List.pairwise_singleton _ _, ?_⟩
      intro x hx y hy
      have hyb := List.mem_singleton.mp hy
      subst hyb
      intro hax _
      obtain ⟨hmem, _, hstat⟩ := spot_of_min_available hmin
      have := hanl spot hmem hstat x hx (isLive_of_active hax)
      simpa using this
  · intro st now bid hids hlive
    rcases admin_request_approve_cases st now bid with ⟨heq, _⟩ |
      ⟨b, spot, hb, hp, hspot, heq⟩ | ⟨b, hb, hp, hspot, heq⟩
    · rw [heq]
      exact hlive.imp (fun hr ha hb =>
        hr (isLive_of_active ha) (isLive_of_active hb))
    · rw [heq]
      exact approve_map_pairwise st now bid b hb hp hids hlive
    · rw [heq]
      exact approve_map_pairwise st now bid b hb hp hids hlive

/-- C7 witness: approving the pending booking of `stPending` preserves
the per-spot invariant. -/
theorem C7_per_spot_active_witness :
    bookingIdsNodup stPending ∧ perSpotLive stPending ∧
    perSpotActive ((admin_request_approve stPending 100 1).2) :=
  ⟨by unfold bookingIdsNodup; decide, by unfold perSpotLive; decide,
    C7_per_spot_active.2.2 stPending 100 1
      (by unfold bookingIdsNodup; decide) (by unfold perSpotLive; decide)⟩

/-- C6 (amended): a booking request (user or offline) that finds no
available spot in the target area is rejected with the state unchanged —
in the offline route even a car row flushed into the session is
discarded by the rollback; every lifecycle handler that answers with an
error leaves the state unchanged, for approval and user release under
the well-formedness that booking spot rows exist and start times are
set — which every handler maintains except the admin bookings API: that
endpoint inserts bookings without checking that the referenced spot
exists, and on such a dangling booking approval and user release commit
a booking-only change before erroring (see the counterexample); and a
successful release updates the booking and its spot together. -/
theorem C6_no_partial_state :
    (∀ (st : St) (now : Int) (uid : Nat) (adm : Bool) (a : Nat)
       (cid : Option Nat),
      availableSpotsIn st a = [] →
      user_book st now uid adm (some a) cid = (.err, st)) ∧
    (∀ (st : St) (now : Int) (plate : String) (a : Nat) (area : ParkingArea),
      findArea st a = some area → availableSpotsIn st area.id = [] →
      admin_offline_book st now plate (some a) = (.err, st)) ∧
    (∀ (st : St) (now : Int) (uid : Nat) (adm : Bool) (aid cid : Option Nat),
      (user_book st now uid adm aid cid).1 = .err →
      (user_book st now uid adm aid cid).2 = st) ∧
    (∀ (st : St) (now : Int) (plate : String) (aid : Option Nat),
      (admin_offline_book st now plate aid).1 = .err →
      (admin_offline_book st now plate aid).2 = st) ∧
    (∀ (st : St) (now : Int) (bid : Nat), bookingsResolved st →
      (admin_request_approve st now bid).1 = .err →
      (admin_request_approve st now bid).2 = st) ∧
    (∀ (st : St) (bid : Nat),
      (admin_request_reject st bid).1 = .err →
      (admin_request_reject st bid).2 = st) ∧
    (∀ (st : St) (uid bid : Nat),
      (user_cancel_pending st uid bid).1 = .err →
      (user_cancel_pending st uid bid).2 = st) ∧
    (∀ (st : St) (now : Int) (uid bid : Nat), bookingsResolved st →
      (user_release st now uid bid).1 = .err →
      (user_release st now uid bid).2 = st) ∧
    (∀ (st : St) (now : Int) (bid : Nat),
      (admin_offline_release st now bid).1 = .err →
      (admin_offline_release st now bid).2 = st) ∧
    (∀ (st : St) (now : Int) (uid bid : Nat),
      (user_release st now uid bid).1 = .ok →
      ∃ b spot, findBooking st bid = some b ∧
        findSpot st b.spotId = some spot ∧
        (∃ b', findBooking (user_release st now uid bid).2 bid = some b' ∧
          b'.status = .completed ∧ b'.endTime = some ⟨now, true⟩) ∧
        findSpot (user_release st now uid bid).2 spot.id =
          some { spot with status := .available }) := by
  refine ⟨?_, ?_, ?_, ?_, ?_, ?_, ?_, ?_, ?_, ?_⟩
  · intro st now uid adm a cid hemp
    rcases user_book_cases st now uid adm (some a) cid with heq |
      ⟨a', c, spot, ha', _, _, hmin, _⟩
    · exact heq
    · exfalso
      have haa : a = a' := by injection ha'
      rw [← haa, hemp] at hmin
      simp [minByIdent] at hmin
  · intro st now plate a area harea hemp
    rcases admin_offline_book_cases st now plate (some a) with heq |
      ⟨car, newCar, a', area', spot, ha', harea', _, hmin, _⟩
    · exact heq
    · exfalso
      have haa : a = a' := by injection ha'
      subst haa
      have haar : area = area' := by
        have hx := harea.symm.trans harea'
        injection hx
      subst haar
      rw [hemp] at hmin
      simp [minByIdent] at hmin
  · intro st now uid adm aid cid herr
    rcases user_book_cases st now uid adm aid cid with heq |
      ⟨_, _, _, _, _, _, _, heq⟩
    · rw [heq]
    · rw [heq] at herr
      exact absurd herr (by simp)
  · intro st now plate aid herr
    rcases admin_offline_book_cases st now plate aid with heq |
      ⟨_, _, _, _, _, _, _, _, _, heq⟩
    · rw [heq]
    · rw [heq] at herr
      exact absurd herr (by simp)
  · intro st now bid hres herr
    rcases admin_request_approve_cases st now bid with ⟨heq, _⟩ |
      ⟨b, spot, hb, hp, hspot, heq⟩ | ⟨b, hb, hp, hspot, heq⟩
    · rw [heq]
    · rw [heq] at herr
      exact absurd herr (by simp)
    · exfalso
      have hx := (hres b (List.mem_of_find?_eq_some hb)).1
      rw [hspot] at hx
      simp at hx
  · intro st bid herr
    rcases admin_request_reject_cases st bid with heq |
      ⟨b, spot, hb, hp, hspot, heq⟩ | ⟨b, hb, hp, hspot, heq⟩
    · rw [heq]
    · rw [heq] at herr
      exact absurd herr (by simp)
    · rw [heq] at herr
      exact absurd herr (by simp)
  · intro st uid bid herr
    rcases user_cancel_pending_cases st uid bid with heq |
      ⟨b, spot, hb, hu, hp, hspot, heq⟩ | ⟨b, hb, hu, hp, hspot, heq⟩
    · rw [heq]
    · rw [heq] at herr
      exact absurd herr (by simp)
    · rw [heq] at herr
      exact absurd herr (by simp)
  · intro st now uid bid hres herr
    rcases user_release_cases st now uid bid with heq |
      ⟨b, spot, area, t, hb, _, _, _, _, _, heq⟩ |
      ⟨b, hb, _, _, hdisj, heq⟩
    · rw [heq]
    · rw [heq] at herr
      exact absurd herr (by simp)
    · exfalso
      have hx := hres b (List.mem_of_find?_eq_some hb)
      rcases hdisj with hd | hd
      · rw [hd] at hx
        simp at hx
      · rw [hd] at hx
        simp at hx
  · intro st now bid herr
    rcases admin_offline_release_cases st now bid with heq |
      ⟨b, spot, area, t, hb, _, _, _, _, heq⟩ |
      ⟨b, hb, _, _, heq⟩ | ⟨b, spot, hb, _, _, _, heq⟩
    · rw [heq]
    · rw [heq] at herr
      exact absurd herr (by simp)
    · rw [heq] at herr
      exact absurd herr (by simp)
    · rw [heq] at herr
      exact absurd herr (by simp)
  · intro st now uid bid hok
    rcases user_release_cases st now uid bid with heq |
      ⟨b, spot, area, t, hb, hu, hnc, hsp, ht, ha, heq⟩ |
      ⟨b, hb, _, _, hdisj, heq⟩
    · rw [heq] at hok
      exact absurd hok (by simp)
    · have hsp0 : st.spots.find? (fun s => s.id = b.spotId) = some spot := hsp
      have hkey : spot.id = b.spotId := by
        have hx := List.find?_some hsp0
        simpa using hx
      have hsp' : st.spots.find? (fun s => s.id = spot.id) = some spot := by
        rw [← hkey] at hsp0
        exact hsp0
      refine ⟨b, spot, hb, hsp,
        ⟨{ b with
            status := .completed
            endTime := some ⟨now, true⟩
            totalCost := some (round2
              ((max 1 ⌈((now - t.secs : Int) : Rat) / 3600⌉ : Int) *
                area.pricePerHour)) }, ?_, rfl, rfl⟩, ?_⟩
      · rw [heq]
        exact find?_key_map Booking.id bid _ st.bookings b rfl hb
      · rw [heq]
        exact find?_key_map ParkingSpot.id spot.id _ st.spots spot rfl hsp'
    · rw [heq] at hok
      exact absurd hok (by simp)

/-- C6 witness: with the only spot occupied, a booking request is
rejected and the state is unchanged; a release attempt by a non-owner
errs and changes nothing; a successful release completes the booking and
frees its spot together. -/
theorem C6_no_partial_state_witness :
    availableSpotsIn stActive 1 = [] ∧
    user_book stActive 7 2 false (some 1) (some 1) = (.err, stActive) ∧
    bookingsResolved stActive ∧
    (user_release stActive 10 5 1).1 = .err ∧
    (user_release stActive 10 5 1).2 = stActive ∧
    (user_release stActive 4200 2 1).1 = .ok ∧
    (∃ b spot, findBooking stActive 1 = some b ∧
      findSpot stActive b.spotId = some spot ∧
      (∃ b', findBooking (user_release stActive 4200 2 1).2 1 = some b' ∧
        b'.status = .completed ∧ b'.endTime = some ⟨4200, true⟩) ∧
      findSpot (user_release stActive 4200 2 1).2 spot.id =
        some { spot with status := .available }) :=
  ⟨by decide,
    C6_no_partial_state.1 stActive 7 2 false 1 (some 1) (by decide),
    by unfold bookingsResolved; decide,
    by decide,
    C6_no_partial_state.2.2.2.2.2.2.2.1 stActive 10 5 1
      (by unfold bookingsResolved; decide) (by decide),
    by decide,
    C6_no_partial_state.2.2.2.2.2.2.2.2.2 stActive 4200 2 1 (by decide)⟩

/-- C6 counterexample: `stDangling` is, by definition, the state the
admin bookings API produces when posting an active booking whose
`spot_id` (99) names no spot row — the endpoint performs no existence
check and SQLite does not enforce the foreign key. The owner's release
of that booking then errors (the spot lookup yields nothing), yet the
state has changed: the booking row was completed and committed before
the failure, so the error does not leave the database unchanged. -/
theorem C6_counterexample :
    stDangling = (apiBookingPost stNoSpots apiDanglingArgs).2 ∧
    (apiBookingPost stNoSpots apiDanglingArgs).1 = .ok ∧
    findSpot stDangling 99 = none ∧
    (user_release stDangling 10 2 1).1 = .err ∧
    (user_release stDangling 10 2 1).2 ≠ stDangling :=
  ⟨rfl, by decide, by decide, by decide, by decide⟩

/-- Case characterization of `ParkingAreaListAPI.post`. -/
theorem apiAreaPost_cases (st : St) (args : AreaPostArgs) :
    apiAreaPost st args = (Outcome.err, st) ∨
    apiAreaPost st args = (.ok,
      { st with
        areas := st.areas ++ [{ id := st.nextAreaId, name := args.name,
                                pricePerHour := args.pricePerHour }],
        spots := st.spots ++ (List.range args.numSpots).map (fun i =>
          ({ id := st.nextSpotId + i,
             spotIdentifier := pyUpper args.areaCode ++ "-" ++ toString (i + 1),
             status := .available,
             parkingAreaId := st.nextAreaId } : ParkingSpot)),
        nextAreaId := st.nextAreaId + 1,
        nextSpotId := st.nextSpotId + args.numSpots }) := by
  unfold apiAreaPost
  split
  · exact Or.inl rfl
  · split
    · exact Or.inl rfl
    · exact Or.inr rfl

/-- The text before the first dash of a provisioned spot identifier does
not depend on the spot number. -/
theorem beforeDash_provisioned (code : String) (j : Nat) :
    beforeDashL ((code ++ "-" ++ toString (j + 1) : String)).data =
      beforeDashL code.data := by
  have h1 : ((code ++ "-" ++ toString (j + 1) : String)).data =
      code.data ++ '-' :: (toString (j + 1)).data := by
    rw [String.data_append, String.data_append]
    simp
  rw [h1, beforeDashL_append]

/-- C8: an area's code is derived, not stored: the reported code is the
text before the first `-` of the area's first spot identifier; for an
area with zero spots it is the empty string, and for an area provisioned
through the areas API the code equals the text before the first `-` of
any one of its spot identifiers. -/
theorem C8_area_code_derived :
    (∀ (st : St) (aid : Nat),
      st.spots.filter (fun s => s.parkingAreaId = aid) = [] →
      areaCodeOf st aid = "") ∧
    (∀ (st : St) (args : AreaPostArgs),
      (∀ s ∈ st.spots, s.parkingAreaId ≠ st.nextAreaId) →
      (apiAreaPost st args).1 = .ok →
      ∀ s ∈ (apiAreaPost st args).2.spots, s.parkingAreaId = st.nextAreaId →
        areaCodeOf (apiAreaPost st args).2 st.nextAreaId =
          String.mk (beforeDashL s.spotIdentifier.data)) := by
  constructor
  · intro st aid h
    unfold areaCodeOf
    rw [h]
    rfl
  · intro st args hfresh hok s hs hsid
    rcases apiAreaPost_cases st args with heq | heq
    · rw [heq] at hok
      exact absurd hok (by simp)
    · have hs' : s ∈ st.spots ++ (List.range args.numSpots).map (fun i =>
          ({ id := st.nextSpotId + i,
             spotIdentifier := pyUpper args.areaCode ++ "-" ++ toString (i + 1),
             status := .available,
             parkingAreaId := st.nextAreaId } : ParkingSpot)) := by
        rw [heq] at hs
        exact hs
      rcases List.mem_append.mp hs' with hold | hnew
      · exact absurd hsid (hfresh s hold)
      · rcases List.mem_map.mp hnew with ⟨i, hi, rfl⟩
        have hspots : (apiAreaPost st args).2.spots =
            st.spots ++ (List.range args.numSpots).map (fun i =>
              ({ id := st.nextSpotId + i,
                 spotIdentifier :=
                   pyUpper args.areaCode ++ "-" ++ toString (i + 1),
                 status := .available,
                 parkingAreaId := st.nextAreaId } : ParkingSpot)) := by
          rw [heq]
        have hfilter : ((apiAreaPost st args).2.spots.filter
              (fun sp => sp.parkingAreaId = st.nextAreaId)) =
            (List.range args.numSpots).map (fun i =>
              ({ id := st.nextSpotId + i,
                 spotIdentifier :=
                   pyUpper args.areaCode ++ "-" ++ toString (i + 1),
                 status := .available,
                 parkingAreaId := st.nextAreaId } : ParkingSpot)) := by
          rw [hspots, List.filter_append]
          rw [List.filter_eq_nil_iff.mpr (by
            intro x hxm
            simp [hfresh x hxm])]
          rw [List.filter_eq_self.mpr (by
            intro x hxm
            rcases List.mem_map.mp hxm with ⟨j, _, rfl⟩
            simp)]
          simp
        obtain ⟨m, hm⟩ : ∃ m, args.numSpots = m + 1 := by
          have hilt := List.mem_range.mp hi
          exact ⟨args.numSpots - 1, by omega⟩
        unfold areaCodeOf
        rw [hfilter, hm, List.range_succ_eq_map, List.map_cons]
        simp only [List.head?_cons]
        rw [beforeDash_provisioned, beforeDash_provisioned]

/-- C8 witness: the empty database reports `""` as the code of area 1,
and after provisioning area 1 with spots `AB-1 .. AB-3` the reported
code equals the text before the first dash of spot `AB-1`. -/
theorem C8_area_code_derived_witness :
    stEmpty.spots.filter (fun s => s.parkingAreaId = 1) = [] ∧
    areaCodeOf stEmpty 1 = "" ∧
    (apiAreaPost stEmpty exAreaArgs).1 = .ok ∧
    ({ id := 1, spotIdentifier := "AB-1", status := .available,
       parkingAreaId := 1 } : ParkingSpot) ∈
      (apiAreaPost stEmpty exAreaArgs).2.spots ∧
    areaCodeOf (apiAreaPost stEmpty exAreaArgs).2 stEmpty.nextAreaId =
      String.mk (beforeDashL ("AB-1" : String).data) :=
  ⟨by decide,
    C8_area_code_derived.1 stEmpty 1 (by decide),
    by decide,
    by decide,
    C8_area_code_derived.2 stEmpty exAreaArgs (by decide) (by decide)
      { id := 1, spotIdentifier := "AB-1", status := .available,
        parkingAreaId := 1 }
      (by decide) (by decide)⟩

/-- Helper for C10: the middle-segments slice of an identifier with
fewer than three dash-separated segments is empty, so the derived key is
the empty string. -/
theorem derivedKey_of_short (s : String)
    (h : (pySplit '-' s.data).length < 3) : derivedKey s = "" := by
  unfold derivedKey pySliceMiddle
  have hz : ((pySplit '-' s.data).drop 1).dropLast = [] := by
    apply List.eq_nil_of_length_eq_zero
    rw [List.length_dropLast, List.length_drop]
    omega
  rw [hz]
  rfl

/-- C9: the partial secret key is derived from the account's internal
unique identifier by splitting on dashes, dropping the first and the
last segment, and rejoining with dashes; both password-reset paths (the
JSON API and the server-rendered flow) permit a reset only when this key
and the lowercased, whitespace-stripped, hashed secret answer both
match. -/
theorem C9_reset_two_factor :
    (∀ (users : List User) (email ans key newPw : String),
      (forgotPasswordResetApi users email ans key newPw).1 = .ok →
      ∃ u, users.find? (fun v => v.email = email) = some u ∧
        checkSecretAnswer u ans = true ∧
        u.secretAnswerHash = pwHash (pyStrip (pyLower ans)) ∧
        key = String.intercalate "-"
          ((pySliceMiddle (pySplit '-' u.fsUniquifier.data)).map String.mk)) ∧
    (∀ (users : List User) (sessionEmail : Option String)
       (ans key newPw confirmPw : String),
      (resetPasswordVerify users sessionEmail ans key newPw confirmPw).1 =
        .ok →
      ∃ email u, sessionEmail = some email ∧
        users.find? (fun v => v.email = email) = some u ∧
        checkSecretAnswer u ans = true ∧
        key = derivedKey u.fsUniquifier) := by
  constructor
  · intro users email ans key newPw hok
    unfold forgotPasswordResetApi at hok
    cases hf : users.find? (fun v => v.email = email) with
    | none =>
      simp only [hf] at hok
      exact absurd hok (by simp)
    | some u =>
      simp only [hf] at hok
      by_cases h1 : (!(checkSecretAnswer u ans) ||
          decide (derivedKey u.fsUniquifier ≠ key)) = true
      · rw [if_pos h1] at hok
        exact absurd hok (by simp)
      · rw [if_neg h1] at hok
        simp only [Bool.or_eq_true, Bool.not_eq_true', decide_eq_true_eq,
          not_or] at h1
        obtain ⟨hcheck, hkey⟩ := h1
        have hch : checkSecretAnswer u ans = true := by
          cases hq : checkSecretAnswer u ans
          · exact absurd hq hcheck
          · rfl
        refine ⟨u, rfl, hch, ?_, (not_not.mp hkey).symm⟩
        unfold checkSecretAnswer at hch
        split_ifs at hch with hz
        exact of_decide_eq_true hch
  · intro users sessionEmail ans key newPw confirmPw hok
    unfold resetPasswordVerify at hok
    cases hse : sessionEmail with
    | none =>
      simp only [hse] at hok
      exact absurd hok (by simp)
    | some email =>
      simp only [hse] at hok
      cases hf : users.find? (fun v => v.email = email) with
      | none =>
        simp only [hf] at hok
        exact absurd hok (by simp)
      | some u =>
        simp only [hf] at hok
        split_ifs at hok with h1 h2
        simp only [Bool.and_eq_true, decide_eq_true_eq] at h2
        exact ⟨email, u, rfl, hf, h2.1, h2.2.symm⟩

/-- C9 witness: alice resets her password through the API with the
middle segments of her identifier and her (unstripped, upper-cased)
secret answer. -/
theorem C9_reset_two_factor_witness :
    (forgotPasswordResetApi [exAlice] "alice@example.com" " BLUE "
      "2222-3333" "Abc1!x").1 = .ok ∧
    ∃ u, [exAlice].find? (fun v => v.email = "alice@example.com") = some u ∧
      checkSecretAnswer u " BLUE " = true ∧
      u.secretAnswerHash = pwHash (pyStrip (pyLower " BLUE ")) ∧
      "2222-3333" = String.intercalate "-"
        ((pySliceMiddle (pySplit '-' u.fsUniquifier.data)).map String.mk) :=
  ⟨by decide,
    C9_reset_two_factor.1 [exAlice] "alice@example.com" " BLUE "
      "2222-3333" "Abc1!x" (by decide)⟩

/-- C10: the derivation `'-'.join(s.split('-')[1:-1])` is total — every
step is a total function of the embedding, so the `except IndexError`
fallbacks of both reset paths are unreachable — and for an identifier
with fewer than three dash-separated segments it returns the empty
string; consequently a reset request supplying an empty secret key
passes the secret-key factor for such an account. -/
theorem C10_key_slice_total :
    (∀ s : String, (pySplit '-' s.data).length < 3 → derivedKey s = "") ∧
    (∀ (users : List User) (u : User) (email ans newPw : String),
      users.find? (fun v => v.email = email) = some u →
      (pySplit '-' u.fsUniquifier.data).length < 3 →
      checkSecretAnswer u ans = true →
      isPasswordStrong newPw = true →
      (forgotPasswordResetApi users email ans "" newPw).1 = .ok) := by
  refine ⟨derivedKey_of_short, ?_⟩
  intro users u email ans newPw hf hlen hans hstrong
  unfold forgotPasswordResetApi
  simp only [hf]
  rw [if_neg (by simp [hans, derivedKey_of_short _ hlen])]
  rw [if_neg (by simp [hstrong])]

/-- C10 witness: the offline account's identifier `x-y` has only two
segments, its derived key is `""`, and a reset with an empty secret key
and the right answer succeeds. -/
theorem C10_key_slice_total_witness :
    (pySplit '-' ("x-y" : String).data).length < 3 ∧
    derivedKey "x-y" = "" ∧
    [exOffline].find? (fun v => v.email = "offline@example.com") =
      some exOffline ∧
    checkSecretAnswer exOffline "offline" = true ∧
    isPasswordStrong "Abc1!x" = true ∧
    (forgotPasswordResetApi [exOffline] "offline@example.com" "offline" ""
      "Abc1!x").1 = .ok :=
  ⟨by decide, C10_key_slice_total.1 "x-y" (by decide), by decide, by decide,
    by decide,
    C10_key_slice_total.2 [exOffline] exOffline "offline@example.com"
      "offline" "Abc1!x" (by decide) (by decide) (by decide) (by decide)⟩

end Parking
